import Mathlib

/-!
# Shallow embedding of the meesign-crypto per-share protocol engines

This file embeds the round-based protocol engines of the repository
(`src/protocol/gg18.rs`, `src/protocol/musig2.rs`, `src/protocol/mod.rs`) and
the FFI construction paths of `src/c_api.rs`, and proves the frozen claims
about them.

Modelling conventions:

* Byte strings are `List Nat`.
* A fallible Rust call observable at the boundary yields an `Outcome`: a
  returned value, a returned `Err` (with its message), or a process panic
  (`todo!`, `unwrap`, `expect`, out-of-bounds slice).  A panic is *not* an
  error return; it aborts the caller.
* Protobuf-decoded inputs are modelled at the message level: an inbound byte
  string is a `WireIn`, one constructor per decodable message shape plus an
  undecodable constructor.  Outbound bytes are modelled as the `ClientMessage`
  record they encode (the protobuf codec is injective and structural).
* Rust `HashMap`s arriving from the wire are modelled as association lists in
  first-insertion order; iteration order of a `HashMap` is unspecified in
  Rust, and the model resolves it to insertion order, which permutations of
  the inbound entries vary directly.
* The external `mpecdsa` crate (the GG18 round functions `gg18_key_gen_1` ..
  `gg18_sign10`) is outside the repository; the engines treat its carry-over
  contexts and round messages as opaque values.  The embedding is
  parameterized by a `GG18KeygenLib` / `GG18SignLib` record of those round
  functions (composed with the serde (de)serialization of their inputs and
  outputs, which the source chains onto every call with `?`); contexts are
  represented by opaque `Nat` tokens.
-/

namespace MeesignCrypto

/-- Byte strings, modelled as lists of naturals. -/
abbrev Bytes := List Nat

/-- Result of one FFI-observable Rust call: a value, a returned `Err` with its
message, or a panic (which aborts rather than returns). -/
inductive Outcome (α : Type) where
  | ok (val : α)
  | err (msg : String)
  | fatal (msg : String)
deriving Repr, DecidableEq

/-- Whether an outcome is a successful return. -/
def Outcome.isOk {α : Type} : Outcome α → Bool
  | .ok _ => true
  | _ => false

/-- Whether an outcome is a returned error (not a panic). -/
def Outcome.isErr {α : Type} : Outcome α → Bool
  | .err _ => true
  | _ => false

/-- The closed protocol-kind enumeration (`proto::ProtocolType`,
numbered as in `c_api::ProtocolId`). -/
inductive ProtocolType where
  | Gg18
  | Elgamal
  | Frost
  | Musig2
deriving Repr, DecidableEq

/-- The numeric discriminant carried in protobuf messages. -/
def ProtocolType.toInt : ProtocolType → Int
  | .Gg18 => 0
  | .Elgamal => 1
  | .Frost => 2
  | .Musig2 => 3

/-- `proto::ProtocolGroupInit`: the keygen session-init record. -/
structure ProtocolGroupInit where
  protocol_type : Int
  index : Nat
  parties : Nat
  threshold : Nat
deriving Repr, DecidableEq

/-- `proto::ProtocolInit`: the sign/decrypt session-init record. -/
structure ProtocolInit where
  protocol_type : Int
  indices : List Nat
  index : Nat
  data : Bytes
deriving Repr, DecidableEq

/-- `proto::ServerMessage`: the server-aggregated inbound envelope.  The two
peer maps are association lists in first-insertion (wire) order. -/
structure ServerMessage where
  protocol_type : Int
  broadcasts : List (Nat × Bytes)
  unicasts : List (Nat × Bytes)
deriving Repr, DecidableEq

/-- `proto::ClientMessage`: the outbound envelope produced by an engine. -/
structure ClientMessage where
  protocol_type : Int
  unicasts : List (Nat × Bytes)
  broadcast : Option Bytes
deriving Repr, DecidableEq

/-- An inbound byte string, classified by which protobuf message it encodes. -/
inductive WireIn where
  | groupInit (m : ProtocolGroupInit)
  | signInit (m : ProtocolInit)
  | server (m : ServerMessage)
  | undecodable
deriving Repr, DecidableEq

/-- `ProtocolGroupInit::decode`. -/
def decodeGroupInit : WireIn → Except String ProtocolGroupInit
  | .groupInit m => .ok m
  | _ => .error "failed to decode Protobuf message"

/-- `ProtocolInit::decode`. -/
def decodeSignInit : WireIn → Except String ProtocolInit
  | .signInit m => .ok m
  | _ => .error "failed to decode Protobuf message"

/-- `ServerMessage::decode`. -/
def decodeServer : WireIn → Except String ServerMessage
  | .server m => .ok m
  | _ => .error "failed to decode Protobuf message"

/-- An outbound payload before the envelope is attached: one broadcast value,
or one value per peer. -/
inductive Packed where
  | bcast (payload : Bytes)
  | uni (entries : List (Nat × Bytes))
deriving Repr, DecidableEq

/-- Modelled from the spec: `pack` (an older revision of `protocol/mod.rs`
used by `gg18.rs`, not under `src/`): wraps one round's output payload in a
`ClientMessage` envelope tagged with the protocol kind (spec §4.1). -/
def pack (ser : Packed) (pt : ProtocolType) : ClientMessage :=
  match ser with
  | .bcast p => { protocol_type := pt.toInt, unicasts := [], broadcast := some p }
  | .uni es => { protocol_type := pt.toInt, unicasts := es, broadcast := none }

/-- Insertion sort of association-list entries by ascending key (used where
the spec's tie-break policy orders peer maps by ascending peer index). -/
def sortByKey (l : List (Nat × Bytes)) : List (Nat × Bytes) :=
  l.insertionSort (fun a b => a.1 ≤ b.1)

/-- Modelled from the spec: `unpack` (an older revision of `protocol/mod.rs`
used by `gg18.rs`, not under `src/`): decodes the server-aggregated envelope
and returns the per-peer payloads, broadcasts then unicasts, each ordered by
ascending peer index (spec §4.1 and §4.3 tie-break policy). -/
def unpack (data : WireIn) : Except String (List Bytes) :=
  match decodeServer data with
  | .error e => .error e
  | .ok m => .ok ((sortByKey m.broadcasts).map Prod.snd ++ (sortByKey m.unicasts).map Prod.snd)

/-- Modelled from the spec: `inflate` (an older revision of
`protocol/mod.rs`, not under `src/`): replicates one final payload to every
peer; the broadcast envelope carries the payload once. -/
def inflate (b : Bytes) (_n : Nat) : Bytes := b

namespace GG18

/-- The external `mpecdsa` keygen round functions, each composed with the
serde decoding of the inbound per-peer messages (`deserialize_vec`) and the
serde encoding of the round output (`serialize_bcast` / `serialize_uni`),
exactly as the source chains them with `?`.  Carry-over contexts
`GG18KeyGenContext1..5` and the terminal `GG18SignContext` are opaque `Nat`
tokens.  `serCtx` is `serde_json::to_vec` of the terminal context (total on
this type); `pkBytes` is `c.pk.to_bytes(false)`. -/
structure GG18KeygenLib where
  kg1 : Nat → Nat → Nat → Except String (Bytes × Nat)
  kg2 : List Bytes → Nat → Except String (Bytes × Nat)
  kg3 : List Bytes → Nat → Except String (List (Nat × Bytes) × Nat)
  kg4 : List Bytes → Nat → Except String (Bytes × Nat)
  kg5 : List Bytes → Nat → Except String (Bytes × Nat)
  kg6 : List Bytes → Nat → Except String Nat
  pkBytes : Nat → Bytes
  serCtx : Nat → Bytes

/-- `gg18::KeygenRound`. -/
inductive KeygenRound where
  | R0
  | R1 (c : Nat)
  | R2 (c : Nat)
  | R3 (c : Nat)
  | R4 (c : Nat)
  | R5 (c : Nat)
  | Done (c : Nat)
deriving Repr, DecidableEq

/-- `gg18::KeygenContext`. -/
structure KeygenContext where
  round : KeygenRound
deriving Repr, DecidableEq

/-- `gg18::KeygenContext::new`. -/
def KeygenContext.new : KeygenContext := { round := .R0 }

/-- `gg18::KeygenContext::init` (gg18.rs:31-42).  Note: the declared
`protocol_type` field of the decoded record is never examined. -/
def KeygenContext.init (lib : GG18KeygenLib) (self : KeygenContext) (data : WireIn) :
    KeygenContext × Outcome ClientMessage :=
  match decodeGroupInit data with
  | .error e => (self, .err e)
  | .ok msg =>
    match lib.kg1 (msg.parties % 65536) (msg.threshold % 65536) (msg.index % 65536) with
    | .error e => (self, .err e)
    | .ok (ser, c1) => ({ round := .R1 c1 }, .ok (pack (.bcast ser) .Gg18))

/-- `gg18::KeygenContext::update` (gg18.rs:44-79).  The `Done` arm is
`todo!()` in the source, i.e. a panic. -/
def KeygenContext.update (lib : GG18KeygenLib) (self : KeygenContext) (data : WireIn) :
    KeygenContext × Outcome ClientMessage :=
  match unpack data with
  | .error e => (self, .err e)
  | .ok msgs =>
    match self.round with
    | .R0 => (self, .fatal "internal error: entered unreachable code")
    | .R1 c1 =>
      match lib.kg2 msgs c1 with
      | .error e => (self, .err e)
      | .ok (ser, c2) => ({ round := .R2 c2 }, .ok (pack (.bcast ser) .Gg18))
    | .R2 c2 =>
      match lib.kg3 msgs c2 with
      | .error e => (self, .err e)
      | .ok (outs, c3) => ({ round := .R3 c3 }, .ok (pack (.uni outs) .Gg18))
    | .R3 c3 =>
      match lib.kg4 msgs c3 with
      | .error e => (self, .err e)
      | .ok (ser, c4) => ({ round := .R4 c4 }, .ok (pack (.bcast ser) .Gg18))
    | .R4 c4 =>
      match lib.kg5 msgs c4 with
      | .error e => (self, .err e)
      | .ok (ser, c5) => ({ round := .R5 c5 }, .ok (pack (.bcast ser) .Gg18))
    | .R5 c5 =>
      match lib.kg6 msgs c5 with
      | .error e => (self, .err e)
      | .ok c =>
        ({ round := .Done c },
          .ok (pack (.bcast (inflate (lib.pkBytes c) msgs.length)) .Gg18))
    | .Done _ => (self, .fatal "not yet implemented")

/-- `gg18::KeygenContext`'s `Protocol::advance` (gg18.rs:84-90). -/
def KeygenContext.advance (lib : GG18KeygenLib) (self : KeygenContext) (data : WireIn) :
    KeygenContext × Outcome ClientMessage :=
  match self.round with
  | .R0 => self.init lib data
  | _ => self.update lib data

/-- `gg18::KeygenContext`'s `Protocol::finish` (gg18.rs:92-98). -/
def KeygenContext.finish (lib : GG18KeygenLib) (self : KeygenContext) : Except String Bytes :=
  match self.round with
  | .Done ctx => .ok (lib.serCtx ctx)
  | _ => .error "protocol not finished"

/-- The external `mpecdsa` signing round functions `gg18_sign1 ..
gg18_sign10`, each composed with the serde (de)serialization the source
chains onto them with `?`, plus `parseCtx` for the `serde_json::from_slice`
of the group context in `SignContext::new` (which the source `unwrap`s).
Carry-over contexts are opaque `Nat` tokens. -/
structure GG18SignLib where
  parseCtx : Bytes → Option Nat
  sg1 : Nat → List Nat → Nat → Bytes → Except String (Bytes × Nat)
  sg2 : List Bytes → Nat → Except String (List (Nat × Bytes) × Nat)
  sg3 : List Bytes → Nat → Except String (Bytes × Nat)
  sg4 : List Bytes → Nat → Except String (Bytes × Nat)
  sg5 : List Bytes → Nat → Except String (Bytes × Nat)
  sg6 : List Bytes → Nat → Except String (Bytes × Nat)
  sg7 : List Bytes → Nat → Except String (Bytes × Nat)
  sg8 : List Bytes → Nat → Except String (Bytes × Nat)
  sg9 : List Bytes → Nat → Except String (Bytes × Nat)
  sg10 : List Bytes → Nat → Except String Bytes

/-- `gg18::SignRound`. -/
inductive SignRound where
  | R0 (c : Nat)
  | R1 (c : Nat)
  | R2 (c : Nat)
  | R3 (c : Nat)
  | R4 (c : Nat)
  | R5 (c : Nat)
  | R6 (c : Nat)
  | R7 (c : Nat)
  | R8 (c : Nat)
  | R9 (c : Nat)
  | Done (sig : Bytes)
deriving Repr, DecidableEq

/-- `gg18::SignContext`. -/
structure SignContext where
  round : SignRound
deriving Repr, DecidableEq

/-- `gg18::SignContext::new` (gg18.rs:121-125): `serde_json::from_slice`
of the group context, `unwrap`ped — a panic when the bytes do not parse. -/
def SignContext.new (lib : GG18SignLib) (group : Bytes) : Outcome SignContext :=
  match lib.parseCtx group with
  | some c => .ok { round := .R0 c }
  | none => .fatal "called `Result::unwrap()` on an `Err` value"

/-- `gg18::SignContext::init` (gg18.rs:127-143).  Note: the declared
`protocol_type` is never examined, and `my_index ∈ indices` is not checked
here (any index validation happens inside the external `gg18_sign1`). -/
def SignContext.init (lib : GG18SignLib) (self : SignContext) (data : WireIn) :
    SignContext × Outcome ClientMessage :=
  match decodeSignInit data with
  | .error e => (self, .err e)
  | .ok msg =>
    let indices := msg.indices.map (· % 65536)
    match self.round with
    | .R0 c0 =>
      match lib.sg1 c0 indices msg.index msg.data with
      | .error e => (self, .err e)
      | .ok (ser, c1) => ({ round := .R1 c1 }, .ok (pack (.bcast ser) .Gg18))
    | _ => (self, .fatal "internal error: entered unreachable code")

/-- `gg18::SignContext::update` (gg18.rs:145-201).  The `Done` arm is
`todo!()` in the source, i.e. a panic. -/
def SignContext.update (lib : GG18SignLib) (self : SignContext) (data : WireIn) :
    SignContext × Outcome ClientMessage :=
  match unpack data with
  | .error e => (self, .err e)
  | .ok msgs =>
    match self.round with
    | .R0 _ => (self, .fatal "internal error: entered unreachable code")
    | .R1 c1 =>
      match lib.sg2 msgs c1 with
      | .error e => (self, .err e)
      | .ok (outs, c2) => ({ round := .R2 c2 }, .ok (pack (.uni outs) .Gg18))
    | .R2 c2 =>
      match lib.sg3 msgs c2 with
      | .error e => (self, .err e)
      | .ok (ser, c3) => ({ round := .R3 c3 }, .ok (pack (.bcast ser) .Gg18))
    | .R3 c3 =>
      match lib.sg4 msgs c3 with
      | .error e => (self, .err e)
      | .ok (ser, c4) => ({ round := .R4 c4 }, .ok (pack (.bcast ser) .Gg18))
    | .R4 c4 =>
      match lib.sg5 msgs c4 with
      | .error e => (self, .err e)
      | .ok (ser, c5) => ({ round := .R5 c5 }, .ok (pack (.bcast ser) .Gg18))
    | .R5 c5 =>
      match lib.sg6 msgs c5 with
      | .error e => (self, .err e)
      | .ok (ser, c6) => ({ round := .R6 c6 }, .ok (pack (.bcast ser) .Gg18))
    | .R6 c6 =>
      match lib.sg7 msgs c6 with
      | .error e => (self, .err e)
      | .ok (ser, c7) => ({ round := .R7 c7 }, .ok (pack (.bcast ser) .Gg18))
    | .R7 c7 =>
      match lib.sg8 msgs c7 with
      | .error e => (self, .err e)
      | .ok (ser, c8) => ({ round := .R8 c8 }, .ok (pack (.bcast ser) .Gg18))
    | .R8 c8 =>
      match lib.sg9 msgs c8 with
      | .error e => (self, .err e)
      | .ok (ser, c9) => ({ round := .R9 c9 }, .ok (pack (.bcast ser) .Gg18))
    | .R9 c9 =>
      match lib.sg10 msgs c9 with
      | .error e => (self, .err e)
      | .ok sig =>
        ({ round := .Done sig }, .ok (pack (.bcast (inflate sig msgs.length)) .Gg18))
    | .Done _ => (self, .fatal "not yet implemented")

/-- `gg18::SignContext`'s `Protocol::advance` (gg18.rs:206-212). -/
def SignContext.advance (lib : GG18SignLib) (self : SignContext) (data : WireIn) :
    SignContext × Outcome ClientMessage :=
  match self.round with
  | .R0 _ => self.init lib data
  | _ => self.update lib data

/-- `gg18::SignContext`'s `Protocol::finish` (gg18.rs:214-219). -/
def SignContext.finish (self : SignContext) : Except String Bytes :=
  match self.round with
  | .Done sig => .ok sig
  | _ => .error "protocol not finished"

end GG18

/-- `protocol::Recipient` (protocol/mod.rs:20-23). -/
inductive Recipient where
  | Card
  | Server
deriving Repr, DecidableEq

/-- `serialize_bcast` / `encode_raw_bcast` (protocol/mod.rs:52-69): wraps an
already-serialized payload as the broadcast field of a `ClientMessage`.
`serde_json::to_vec` is total on every payload type the engines pass here,
so the `serde_json::Result` layer never errors. -/
def serialize_bcast (payload : Bytes) (pt : ProtocolType) : ClientMessage :=
  { protocol_type := pt.toInt, unicasts := [], broadcast := some payload }

/-- Model of `serde_json::to_vec` of a byte vector: an injective
length-prefixed encoding. -/
def serBytes (b : Bytes) : Bytes := b.length :: b

/-- Model of `serde_json::from_slice::<Vec<u8>>`: the partial inverse of
`serBytes`. -/
def deserBytes (b : Bytes) : Except String Bytes :=
  match b with
  | n :: rest => if rest.length = n then .ok rest else .error "invalid value at line 1"
  | [] => .error "EOF while parsing a value"

/-- One `HashMap::insert`: replaces the value in place when the key exists,
appends otherwise (first-insertion iteration order). -/
def insertEntry (m : List (Nat × Bytes)) (k : Nat) (v : Bytes) : List (Nat × Bytes) :=
  if m.any (fun e => e.1 == k) then m.map (fun e => if e.1 == k then (k, v) else e)
  else m ++ [(k, v)]

/-- Collecting an entry sequence into a `HashMap`, modelled as an association
list in first-insertion order with last-wins values. -/
def collectMap (l : List (Nat × Bytes)) : List (Nat × Bytes) :=
  l.foldl (fun m e => insertEntry m e.1 e.2) []

/-- The per-entry serde parse loop of `deserialize_map`, short-circuiting at
the first undecodable value. -/
def deserEntries : List (Nat × Bytes) → Except String (List (Nat × Bytes))
  | [] => .ok []
  | e :: rest =>
    match deserBytes e.2 with
    | .error msg => .error msg
    | .ok v =>
      match deserEntries rest with
      | .error msg => .error msg
      | .ok vs => .ok ((e.1, v) :: vs)

/-- `deserialize_map::<Vec<u8>>` (protocol/mod.rs:44-50): parses every value
of the map and collects the results into a fresh map. -/
def deserialize_map (m : List (Nat × Bytes)) : Except String (List (Nat × Bytes)) :=
  (deserEntries m).map collectMap

namespace Musig2

/-- Mixing function standing in for the opaque algebra of the spec-modelled
cryptographic operations below; only its concreteness (evaluability) is
relied upon, never an algebraic property. -/
def mix (a b : Nat) : Nat := a * 1000003 + b + 1

/-- Big-endian interpretation of a byte string as a natural. -/
def foldDigits (b : Bytes) : Nat := b.foldl (fun a d => a * 256 + d) 0

/-- Big-endian `k`-byte serialization of a natural. -/
def natBytes (k n : Nat) : Bytes := (List.range k).map (fun i => n / 256 ^ (k - 1 - i) % 256)

/-- Lexicographic order on pairs of naturals. -/
def pairLe (a b : Nat × Nat) : Prop := a.1 < b.1 ∨ (a.1 = b.1 ∧ a.2 ≤ b.2)

instance : DecidableRel pairLe := fun a b => by
  unfold pairLe
  infer_instance

instance : IsTotal (Nat × Nat) pairLe where
  total := by
    intro a b
    unfold pairLe
    omega

instance : IsTrans (Nat × Nat) pairLe where
  trans := by
    intro a b c
    unfold pairLe
    omega

instance : IsAntisymm (Nat × Nat) pairLe where
  antisymm := by
    intro a b h1 h2
    unfold pairLe at h1 h2
    have : a.1 = b.1 ∧ a.2 = b.2 := by omega
    exact Prod.ext this.1 this.2

/-- Ascending sort of naturals. -/
def sortNat (l : List Nat) : List Nat := l.insertionSort (· ≤ ·)

/-- Lexicographic ascending sort of pairs of naturals. -/
def sortPairs (l : List (Nat × Nat)) : List (Nat × Nat) :=
  l.insertionSort pairLe

/-- Modelled from the spec: `musig2::signer::Signer`
(`src/protocol/musig2/signer.rs` is not under `src/`).  The signer holds a
key share, an optional key-aggregation context (the sorted list of all
signers' public key shares — the repository's own tests require every party
to derive the same aggregate key from differently-ordered maps, and its card
flow sorts the shares), the first-round nonce state, the second-round
partial signature, and the partial signatures received from peers. -/
structure Signer where
  sk : Nat
  pk : Nat
  aggCtx : Option (List Nat)
  nonce : Option Nat
  psig : Option Nat
  received : List (Nat × Nat)
deriving Repr, DecidableEq

/-- Modelled from the spec: `Signer::new` draws a fresh random key pair; the
OS randomness is abstracted by passing the drawn signer as an argument. -/
def Signer.fresh (sk : Nat) : Signer :=
  { sk := sk, pk := mix sk 3, aggCtx := none, nonce := none, psig := none, received := [] }

/-- `signer.pubkey().serialize()`: the 33-byte compressed encoding. -/
def Signer.pubkeySer (s : Signer) : Bytes := natBytes 33 s.pk

/-- Modelled from the spec: `Signer::generate_key_agg_ctx` receives the other
parties' key shares, adds its own, and aggregates over the *sorted* share
list (the internal normalization the engine relies on). -/
def Signer.generate_key_agg_ctx (s : Signer) (shares : List Nat) : Signer :=
  { s with aggCtx := some (sortNat (s.pk :: shares)) }

/-- Modelled from the spec: `Signer::get_agg_pubkey` aggregates the key
shares of the aggregation context. -/
def Signer.get_agg_pubkey (s : Signer) : Nat :=
  match s.aggCtx with
  | some l => l.foldl mix 7
  | none => 0

/-- Modelled from the spec: `Signer::get_index` — the signer's internal
index, its rank in the sorted share list of the aggregation context. -/
def Signer.get_index (s : Signer) : Nat :=
  match s.aggCtx with
  | some l => l.indexOf s.pk
  | none => 0

/-- Modelled from the spec: `Signer::first_round` generates the nonce pair
(the randomness is a function of the key share in this model). -/
def Signer.first_round (s : Signer) : Signer := { s with nonce := some (mix s.sk 13) }

/-- Modelled from the spec: `Signer::get_pubnonce` fails exactly when no
first round is active. -/
def Signer.get_pubnonce (s : Signer) : Except String Nat :=
  match s.nonce with
  | some n => .ok (mix n 17)
  | none => .error "first round not initialized"

/-- The 66-byte serialization of a public nonce. -/
def pubnonceSer (n : Nat) : Bytes := natBytes 66 n

/-- Modelled from the spec: `PubNonce::from_bytes` of the `musig2` crate,
defined on 66-byte strings (point validity of the external curve library is
abstracted away). -/
def pubnonceFromBytes (b : Bytes) : Nat := foldDigits b

/-- Modelled from the spec: `Signer::second_round` closes the first round
over the message and the peers' indexed public nonces; the underlying
`musig2` crate receives nonces keyed by signer index, so the result depends
on the *set* of indexed nonces (modelled by sorting), not their order. -/
def Signer.second_round (s : Signer) (message : Bytes) (pubnonces : List (Nat × Nat)) : Signer :=
  { s with
    psig := some (mix (mix (s.nonce.getD 0) (foldDigits message))
      ((sortPairs pubnonces).foldl (fun a p => mix (mix a p.1) p.2) 23)) }

/-- Modelled from the spec: `Signer::get_partial_signature`. -/
def Signer.get_partial_signature (s : Signer) : Nat := s.psig.getD 0

/-- The 32-byte serialization of a partial signature. -/
def psigSer (n : Nat) : Bytes := natBytes 32 n

/-- Modelled from the spec: `Signer::receive_partial_signatures` stores the
peers' indexed partial signatures; the underlying crate receives them keyed
by signer index (modelled by sorting). -/
def Signer.receive_partial_signatures (s : Signer) (ps : List (Nat × Nat)) : Signer :=
  { s with received := sortPairs ps }

/-- Modelled from the spec: `Signer::get_agg_signature` aggregates the own
and received partial signatures. -/
def Signer.get_agg_signature (s : Signer) : Except String Nat :=
  .ok (s.received.foldl (fun a p => mix (mix a p.1) p.2) (mix s.get_partial_signature 31))

/-- The 64-byte serialization of a compact signature. -/
def sigSer (n : Nat) : Bytes := natBytes 64 n

/-- `musig2::Setup` (musig2.rs:14-19). -/
structure Setup where
  threshold : Nat
  parties : Nat
  index : Nat
deriving Repr, DecidableEq

/-- `musig2::KeygenRound` (musig2.rs:27-33). -/
inductive KeygenRound where
  | R0
  | R1 (setup : Setup) (signer : Signer)
  | Done (setup : Setup) (signer : Signer)
deriving Repr, DecidableEq

/-- `musig2::KeygenContext` (musig2.rs:21-25). -/
structure KeygenContext where
  round : KeygenRound
  with_card : Bool
deriving Repr, DecidableEq

/-- `musig2::KeygenContext`'s `KeygenProtocol::new` (musig2.rs:126-133). -/
def KeygenContext.new : KeygenContext := { round := .R0, with_card := false }

/-- `musig2::KeygenContext::with_card` (musig2.rs:36-41). -/
def KeygenContext.withCard : KeygenContext := { round := .R0, with_card := true }

/-- `musig2::KeygenContext::init` (musig2.rs:43-68).  `fresh` is the signer
drawn by `Signer::new` (OS randomness abstracted as an argument). -/
def KeygenContext.init (fresh : Signer) (self : KeygenContext) (data : WireIn) :
    KeygenContext × Outcome (ClientMessage × Recipient) :=
  match decodeGroupInit data with
  | .error e => (self, .err e)
  | .ok msg =>
    if msg.protocol_type ≠ ProtocolType.Musig2.toInt then
      (self, .err "wrong protocol type")
    else if msg.parties % 65536 ≠ msg.threshold % 65536 then
      (self, .err "number of parties must be equal to the treshold")
    else
      let setup : Setup :=
        { threshold := msg.threshold % 65536, parties := msg.parties % 65536,
          index := msg.index % 65536 }
      let signer := fresh
      let public_key_share := signer.pubkeySer
      let msgOut := serialize_bcast (serBytes public_key_share) .Musig2
      ({ self with round := .R1 setup signer }, .ok (msgOut, .Server))

/-- `PublicKey::from_slice` applied to a map value in the keygen round
(musig2.rs:78-85): the source panics (`expect`) when the value is not 33
bytes long; curve-point validity of the external secp256k1 library is
abstracted away (every 33-byte string parses). -/
def parsePubkeyShares (vals : List Bytes) : Outcome (List Nat) :=
  if vals.all (fun v => v.length = 33) then .ok (vals.map foldDigits)
  else .fatal "slice with incorrect length"

/-- `musig2::KeygenContext::update` (musig2.rs:70-104). -/
def KeygenContext.update (self : KeygenContext) (data : WireIn) :
    KeygenContext × Outcome (ClientMessage × Recipient) :=
  match self.round with
  | .R0 => (self, .err "protocol not initialized")
  | .R1 setup signer =>
    match decodeServer data with
    | .error e => (self, .err e)
    | .ok m =>
      match deserialize_map (collectMap m.broadcasts) with
      | .error e => (self, .err e)
      | .ok pub_keys_map =>
        match parsePubkeyShares (pub_keys_map.map Prod.snd) with
        | .err e => (self, .err e)
        | .fatal e => (self, .fatal e)
        | .ok pub_key_shares =>
          let signer := signer.generate_key_agg_ctx pub_key_shares
          let agg_pubkey := signer.get_agg_pubkey
          let msgOut := serialize_bcast (serBytes (natBytes 33 agg_pubkey)) .Musig2
          ({ self with round := .Done setup signer }, .ok (msgOut, .Server))
  | .Done _ _ => (self, .err "protocol already finished")

/-- `musig2::KeygenContext`'s `Protocol::advance` (musig2.rs:109-114). -/
def KeygenContext.advance (fresh : Signer) (self : KeygenContext) (data : WireIn) :
    KeygenContext × Outcome (ClientMessage × Recipient) :=
  match self.round with
  | .R0 => self.init fresh data
  | _ => self.update data

/-- `serde_json::to_vec(&(setup, signer))`, total on this type: an injective
flat encoding of the group context artifact. -/
def serGroup (setup : Setup) (signer : Signer) : Bytes :=
  [setup.threshold, setup.parties, setup.index, signer.sk, signer.pk]
    ++ (match signer.aggCtx with | none => [0] | some l => [1, l.length] ++ l)
    ++ (match signer.nonce with | none => [0] | some n => [1, n])
    ++ (match signer.psig with | none => [0] | some n => [1, n])
    ++ signer.received.length :: signer.received.flatMap (fun p => [p.1, p.2])

/-- `musig2::KeygenContext`'s `Protocol::finish` (musig2.rs:116-123). -/
def KeygenContext.finish (self : KeygenContext) : Except String Bytes :=
  match self.round with
  | .Done setup signer => .ok (serGroup setup signer)
  | _ => .error "protocol not finished"

/-- Structural worker for `chunksExact`; the fuel dominates the length of
the remaining input. -/
def chunksAux (k : Nat) : Nat → Bytes → List Bytes
  | _, [] => []
  | 0, _ :: _ => []
  | fuel + 1, b :: rest =>
    if k = 0 then []
    else (b :: rest).take k :: chunksAux k fuel ((b :: rest).drop k)

/-- `chunks_exact(chunk_len)` over a byte string whose length is a multiple
of `chunk_len`. -/
def chunksExact (k : Nat) (l : Bytes) : List Bytes := chunksAux k l.length l

/-- The accumulator loop of `deserialize_musig` (musig2.rs:143-154): keys
each chunk by its final byte, erroring on a duplicate key. -/
def buildDedup : List Bytes → List (Nat × Bytes) → Except String (List (Nat × Bytes))
  | [], acc => .ok acc
  | c :: rest, acc =>
    let key := c.getLast?.getD 0
    let val := c.dropLast
    if acc.any (fun e => e.1 == key) then .error "Duplicate key found"
    else buildDedup rest (acc ++ [(key, val)])

/-- `musig2::deserialize_musig` (musig2.rs:137-157): concatenates the map
values (in iteration order), cuts the result into `chunk_len`-byte chunks,
and keys each chunk by its embedded final byte. -/
def deserialize_musig (data : List Bytes) (chunk_len : Nat) :
    Except String (List (Nat × Bytes)) :=
  let d := data.flatten
  if d.length % chunk_len ≠ 0 then
    .error "Input data length must be a multiple of the input size"
  else buildDedup (chunksExact chunk_len d) []

/-- `PUBNONCE_CHUNK_LEN` (musig2.rs:168). -/
def PUBNONCE_CHUNK_LEN : Nat := 67

/-- `SCALAR_CHUNK_LEN` (musig2.rs:169). -/
def SCALAR_CHUNK_LEN : Nat := 33

/-- `musig2::SignRound` (musig2.rs:171-177). -/
inductive SignRound where
  | R0
  | R1 (s : Signer)
  | R2 (s : Signer)
  | Done (sig : Nat)
deriving Repr, DecidableEq

/-- `musig2::SignContext` (musig2.rs:159-166). -/
structure SignContext where
  setup : Setup
  initial_signer : Signer
  message : Option Bytes
  indices : Option (List Nat)
  round : SignRound
deriving Repr, DecidableEq

/-- `musig2::SignContext`'s `ThresholdProtocol::new` (musig2.rs:303-315):
`serde_json::from_slice` of the group context, a panic (`expect`) when the
bytes do not parse; the parser of the external serde layer is passed as an
argument. -/
def SignContext.new (parseGroup : Bytes → Option (Setup × Signer)) (group : Bytes) :
    Outcome SignContext :=
  match parseGroup group with
  | some (setup, signer) =>
    .ok { setup := setup, initial_signer := signer, message := none, indices := none,
          round := .R0 }
  | none => .fatal "could not deserialize group context"

/-- `musig2::SignContext::init` (musig2.rs:185-208).  After the kind check
succeeds, `indices`, `message` and the first-round state of
`initial_signer` are written *before* the fallible `get_pubnonce` call. -/
def SignContext.init (self : SignContext) (data : WireIn) :
    SignContext × Outcome (ClientMessage × Recipient) :=
  match decodeSignInit data with
  | .error e => (self, .err e)
  | .ok msg =>
    if msg.protocol_type ≠ ProtocolType.Musig2.toInt then
      (self, .err "wrong protocol type")
    else
      let self1 :=
        { self with
          indices := some (msg.indices.map (· % 65536)),
          message := some msg.data,
          initial_signer := self.initial_signer.first_round }
      match self1.initial_signer.get_pubnonce with
      | .error e => (self1, .err e)
      | .ok pn =>
        let out_buffer := pubnonceSer pn ++ [self1.initial_signer.get_index % 256]
        let msgOut := serialize_bcast (serBytes out_buffer) .Musig2
        ({ self1 with round := .R1 self1.initial_signer }, .ok (msgOut, .Server))

/-- `musig2::SignContext::update` (musig2.rs:210-283). -/
def SignContext.update (self : SignContext) (data : WireIn) :
    SignContext × Outcome (ClientMessage × Recipient) :=
  match self.round with
  | .R0 => (self, .err "protocol not initialized")
  | .R1 signer =>
    match decodeServer data with
    | .error e => (self, .err e)
    | .ok m =>
      match deserialize_map (collectMap m.broadcasts) with
      | .error e => (self, .err e)
      | .ok pubnonce_map =>
        match deserialize_musig (pubnonce_map.map Prod.snd) PUBNONCE_CHUNK_LEN with
        | .error e => (self, .err e)
        | .ok pn_pairs =>
          let pubnonces := pn_pairs.map (fun e => (e.1, pubnonceFromBytes e.2))
          match self.message with
          | some message =>
            let signer := signer.second_round message pubnonces
            let out_buffer := psigSer signer.get_partial_signature
              ++ [signer.get_index % 256]
            let msgOut := serialize_bcast (serBytes out_buffer) .Musig2
            ({ self with round := .R2 signer }, .ok (msgOut, .Server))
          | none => (self, .err "message to sign not initialized")
  | .R2 signer =>
    match decodeServer data with
    | .error e => (self, .err e)
    | .ok m =>
      match deserialize_map (collectMap m.broadcasts) with
      | .error e => (self, .err e)
      | .ok shares_map =>
        match deserialize_musig (shares_map.map Prod.snd) SCALAR_CHUNK_LEN with
        | .error e => (self, .err e)
        | .ok sig_pairs =>
          let partial_signatures := sig_pairs.map (fun e => (e.1, foldDigits e.2))
          let signer := signer.receive_partial_signatures partial_signatures
          match signer.get_agg_signature with
          | .error e => (self, .err e)
          | .ok signature =>
            let msgOut := serialize_bcast (serBytes (sigSer signature)) .Musig2
            ({ self with round := .Done signature }, .ok (msgOut, .Server))
  | .Done _ => (self, .err "protocol already finished")

/-- `musig2::SignContext`'s `Protocol::advance` (musig2.rs:288-293). -/
def SignContext.advance (self : SignContext) (data : WireIn) :
    SignContext × Outcome (ClientMessage × Recipient) :=
  match self.round with
  | .R0 => self.init data
  | _ => self.update data

/-- `musig2::SignContext`'s `Protocol::finish` (musig2.rs:295-300);
`serde_json::to_vec` of a compact signature is total. -/
def SignContext.finish (self : SignContext) : Except String Bytes :=
  match self.round with
  | .Done sig => .ok (sigSer sig)
  | _ => .error "protocol not finished"

end Musig2

namespace CApi

/-- `c_api::ProtocolId` (c_api.rs:21-28). -/
inductive ProtocolId where
  | Gg18
  | Elgamal
  | Frost
  | Musig2
deriving Repr, DecidableEq

/-- `c_api::ProtocolId → ProtocolType` (c_api.rs:31-40). -/
def ProtocolId.toType : ProtocolId → ProtocolType
  | .Gg18 => .Gg18
  | .Elgamal => .Elgamal
  | .Frost => .Frost
  | .Musig2 => .Musig2

/-- Modelled from the spec: the secure-channel session state of
`security::SecureLayer` (`src/security.rs` is not under `src/`; spec §3,
§4.5). -/
inductive SLState where
  | CertSwap
  | Init
  | Running
  | Closed
deriving Repr, DecidableEq

/-- One concrete engine behind the polymorphic `Box<dyn Protocol>` slot. -/
inductive EngineState where
  | gg18Keygen (s : GG18.KeygenContext)
  | gg18Sign (s : GG18.SignContext)
  | m2Keygen (s : Musig2.KeygenContext)
  | m2Sign (s : Musig2.SignContext)
deriving Repr, DecidableEq

/-- Modelled from the spec: `security::SecureLayer` (not under `src/`):
a vector of share engines, the session state, the pinned certificates, the
identity bundle, and the protocol kind (spec §4.5). -/
structure SecureLayer where
  state : SLState
  shares : List EngineState
  certs : Bytes
  pkcs12 : Bytes
  ptype : ProtocolType
deriving Repr, DecidableEq

/-- Reads `n` length-prefixed segments, consuming the whole input. -/
def parseSegs : Nat → Bytes → Option (List Bytes)
  | 0, [] => some []
  | 0, _ :: _ => none
  | _ + 1, [] => none
  | n + 1, len :: rest =>
    if len ≤ rest.length then
      (parseSegs n (rest.drop len)).map (fun segs => rest.take len :: segs)
    else none

/-- Model of `serde_json::from_slice::<Vec<Vec<u8>>>`: a list of byte
vectors, each length-prefixed as in `serBytes`, under an outer count. -/
def parseVecVec (b : Bytes) : Option (List Bytes) :=
  match b with
  | n :: rest => parseSegs n rest
  | [] => none

/-- The `build_proto` closure of `c_api::protocol_init` (c_api.rs:233-246):
constructs one sign/decrypt engine from one serialized share context.  The
`elgamal`/`frost` modules are not part of this build, so those arms are the
source's `panic!("Protocol not supported")`. -/
def build_proto (proto_id : ProtocolId) (gg18lib : GG18.GG18SignLib)
    (m2parse : Bytes → Option (Musig2.Setup × Musig2.Signer)) (share_ser : Bytes) :
    Outcome EngineState :=
  match proto_id with
  | .Gg18 =>
    match GG18.SignContext.new gg18lib share_ser with
    | .ok s => .ok (.gg18Sign s)
    | .err e => .err e
    | .fatal e => .fatal e
  | .Musig2 =>
    match Musig2.SignContext.new m2parse share_ser with
    | .ok s => .ok (.m2Sign s)
    | .err e => .err e
    | .fatal e => .fatal e
  | _ => .fatal "Protocol not supported"

/-- Builds every share engine, aborting at the first panic. -/
def buildAll (proto_id : ProtocolId) (gg18lib : GG18.GG18SignLib)
    (m2parse : Bytes → Option (Musig2.Setup × Musig2.Signer)) :
    List Bytes → Outcome (List EngineState)
  | [] => .ok []
  | s :: rest =>
    match build_proto proto_id gg18lib m2parse s with
    | .ok e =>
      match buildAll proto_id gg18lib m2parse rest with
      | .ok es => .ok (e :: es)
      | .err msg => .err msg
      | .fatal msg => .fatal msg
    | .err msg => .err msg
    | .fatal msg => .fatal msg

/-- `c_api::protocol_init` (c_api.rs:217-258).  The group bytes are
`serde_json::from_slice::<Vec<Vec<u8>>>`-decoded and `unwrap`ped (a panic on
failure); the decoded list is then sliced with `[..shares]` (a panic when
`shares` exceeds its length) before the per-share engines are built.  No
error out-parameter is touched on either path. -/
def protocol_init (proto_id : ProtocolId) (gg18lib : GG18.GG18SignLib)
    (m2parse : Bytes → Option (Musig2.Setup × Musig2.Signer))
    (group_ser : Bytes) (certs : Bytes) (pkcs12 : Bytes) (shares : Nat) :
    Outcome SecureLayer :=
  match parseVecVec group_ser with
  | none => .fatal "called `Result::unwrap()` on an `Err` value"
  | some shares_ser =>
    if shares_ser.length < shares then
      .fatal "range end index out of range for slice"
    else
      match buildAll proto_id gg18lib m2parse (shares_ser.take shares) with
      | .ok engines =>
        .ok { state := .Init, shares := engines, certs := certs, pkcs12 := pkcs12,
              ptype := proto_id.toType }
      | .err msg => .err msg
      | .fatal msg => .fatal msg

end CApi

/-! ## The snapshot codec

`c_api::protocol_serialize` / `protocol_deserialize` (c_api.rs:121-133)
serialize the engine state with `serde_json` through the derived
`Serialize`/`Deserialize` instances of `gg18.rs`/`musig2.rs` and the
`typetag` kind tag.  The derive layer is generated code; it is modelled at
the JSON-tree level: `J` is the serde_json value tree, each state type gets
the encoder the derive produces (structs as objects of fields, enums
externally tagged, options as null-or-value, byte vectors as number arrays)
and the matching decoder.  The byte layer on top of the tree (JSON printing
and parsing, external `serde_json` code) is an injective codec and is not
re-modelled. -/

/-- A serde_json value tree. -/
inductive J where
  | null
  | bool (b : Bool)
  | num (n : Nat)
  | str (s : String)
  | arr (l : List J)
  | obj (l : List (String × J))
deriving Repr

/-- Encodes an optional value, `null` when absent. -/
def optJ {α : Type} (f : α → J) : Option α → J
  | none => .null
  | some a => f a

/-- Decodes a `J.num` list back to naturals. -/
def decNums : List J → Option (List Nat)
  | [] => some []
  | .num n :: rest => (decNums rest).map (n :: ·)
  | _ => none

/-- Decodes a list of two-element number arrays back to pairs. -/
def decPairs : List J → Option (List (Nat × Nat))
  | [] => some []
  | .arr [.num a, .num b] :: rest => (decPairs rest).map ((a, b) :: ·)
  | _ => none

/-- Decodes an optional number. -/
def decOptNum : J → Option (Option Nat)
  | .null => some none
  | .num n => some (some n)
  | _ => none

/-- Decodes an optional number array. -/
def decOptNums : J → Option (Option (List Nat))
  | .null => some none
  | .arr l => (decNums l).map some
  | _ => none

/-- The derived serializer of `gg18::KeygenRound` (externally tagged). -/
def GG18.KeygenRound.toJ : GG18.KeygenRound → J
  | .R0 => .str "R0"
  | .R1 c => .obj [("R1", .num c)]
  | .R2 c => .obj [("R2", .num c)]
  | .R3 c => .obj [("R3", .num c)]
  | .R4 c => .obj [("R4", .num c)]
  | .R5 c => .obj [("R5", .num c)]
  | .Done c => .obj [("Done", .num c)]

/-- The derived deserializer of `gg18::KeygenRound`. -/
def GG18.KeygenRound.fromJ : J → Option GG18.KeygenRound
  | .str "R0" => some .R0
  | .obj [("R1", .num c)] => some (.R1 c)
  | .obj [("R2", .num c)] => some (.R2 c)
  | .obj [("R3", .num c)] => some (.R3 c)
  | .obj [("R4", .num c)] => some (.R4 c)
  | .obj [("R5", .num c)] => some (.R5 c)
  | .obj [("Done", .num c)] => some (.Done c)
  | _ => none

/-- The derived serializer of `gg18::KeygenContext`. -/
def GG18.KeygenContext.toJ (s : GG18.KeygenContext) : J :=
  .obj [("round", s.round.toJ)]

/-- The derived deserializer of `gg18::KeygenContext`. -/
def GG18.KeygenContext.fromJ : J → Option GG18.KeygenContext
  | .obj [("round", j)] => (GG18.KeygenRound.fromJ j).map (fun r => { round := r })
  | _ => none

/-- The derived serializer of `gg18::SignRound` (externally tagged). -/
def GG18.SignRound.toJ : GG18.SignRound → J
  | .R0 c => .obj [("R0", .num c)]
  | .R1 c => .obj [("R1", .num c)]
  | .R2 c => .obj [("R2", .num c)]
  | .R3 c => .obj [("R3", .num c)]
  | .R4 c => .obj [("R4", .num c)]
  | .R5 c => .obj [("R5", .num c)]
  | .R6 c => .obj [("R6", .num c)]
  | .R7 c => .obj [("R7", .num c)]
  | .R8 c => .obj [("R8", .num c)]
  | .R9 c => .obj [("R9", .num c)]
  | .Done sig => .obj [("Done", .arr (sig.map J.num))]

/-- The derived deserializer of `gg18::SignRound`. -/
def GG18.SignRound.fromJ : J → Option GG18.SignRound
  | .obj [(tag, .num c)] =>
    if tag = "R0" then some (.R0 c)
    else if tag = "R1" then some (.R1 c)
    else if tag = "R2" then some (.R2 c)
    else if tag = "R3" then some (.R3 c)
    else if tag = "R4" then some (.R4 c)
    else if tag = "R5" then some (.R5 c)
    else if tag = "R6" then some (.R6 c)
    else if tag = "R7" then some (.R7 c)
    else if tag = "R8" then some (.R8 c)
    else if tag = "R9" then some (.R9 c)
    else none
  | .obj [("Done", .arr l)] => (decNums l).map (fun sig => .Done sig)
  | _ => none

/-- The derived serializer of `gg18::SignContext`. -/
def GG18.SignContext.toJ (s : GG18.SignContext) : J :=
  .obj [("round", s.round.toJ)]

/-- The derived deserializer of `gg18::SignContext`. -/
def GG18.SignContext.fromJ : J → Option GG18.SignContext
  | .obj [("round", j)] => (GG18.SignRound.fromJ j).map (fun r => { round := r })
  | _ => none

/-- The derived serializer of `musig2::Setup`. -/
def Musig2.Setup.toJ (s : Musig2.Setup) : J :=
  .obj [("threshold", .num s.threshold), ("parties", .num s.parties), ("index", .num s.index)]

/-- The derived deserializer of `musig2::Setup`. -/
def Musig2.Setup.fromJ : J → Option Musig2.Setup
  | .obj [("threshold", .num t), ("parties", .num p), ("index", .num i)] =>
    some { threshold := t, parties := p, index := i }
  | _ => none

/-- The derived serializer of the spec-modelled `musig2::signer::Signer`. -/
def Musig2.Signer.toJ (s : Musig2.Signer) : J :=
  .obj [("sk", .num s.sk), ("pk", .num s.pk),
        ("agg_ctx", optJ (fun l => .arr (l.map J.num)) s.aggCtx),
        ("nonce", optJ J.num s.nonce),
        ("psig", optJ J.num s.psig),
        ("received", .arr (s.received.map (fun p => .arr [.num p.1, .num p.2])))]

/-- The derived deserializer of the spec-modelled `musig2::signer::Signer`. -/
def Musig2.Signer.fromJ : J → Option Musig2.Signer
  | .obj [("sk", .num sk), ("pk", .num pk), ("agg_ctx", aggJ), ("nonce", nJ),
          ("psig", pJ), ("received", .arr rl)] => do
    let aggCtx ← decOptNums aggJ
    let nonce ← decOptNum nJ
    let psig ← decOptNum pJ
    let received ← decPairs rl
    some { sk := sk, pk := pk, aggCtx := aggCtx, nonce := nonce, psig := psig,
           received := received }
  | _ => none

/-- The derived serializer of `musig2::KeygenRound` (externally tagged). -/
def Musig2.KeygenRound.toJ : Musig2.KeygenRound → J
  | .R0 => .str "R0"
  | .R1 setup signer => .obj [("R1", .arr [setup.toJ, signer.toJ])]
  | .Done setup signer => .obj [("Done", .arr [setup.toJ, signer.toJ])]

/-- The derived deserializer of `musig2::KeygenRound`. -/
def Musig2.KeygenRound.fromJ : J → Option Musig2.KeygenRound
  | .str "R0" => some .R0
  | .obj [("R1", .arr [sJ, gJ])] => do
    let setup ← Musig2.Setup.fromJ sJ
    let signer ← Musig2.Signer.fromJ gJ
    some (.R1 setup signer)
  | .obj [("Done", .arr [sJ, gJ])] => do
    let setup ← Musig2.Setup.fromJ sJ
    let signer ← Musig2.Signer.fromJ gJ
    some (.Done setup signer)
  | _ => none

/-- The derived serializer of `musig2::KeygenContext`. -/
def Musig2.KeygenContext.toJ (s : Musig2.KeygenContext) : J :=
  .obj [("round", s.round.toJ), ("with_card", .bool s.with_card)]

/-- The derived deserializer of `musig2::KeygenContext`. -/
def Musig2.KeygenContext.fromJ : J → Option Musig2.KeygenContext
  | .obj [("round", rJ), ("with_card", .bool wc)] =>
    (Musig2.KeygenRound.fromJ rJ).map (fun r => { round := r, with_card := wc })
  | _ => none

/-- The derived serializer of `musig2::SignRound` (externally tagged). -/
def Musig2.SignRound.toJ : Musig2.SignRound → J
  | .R0 => .str "R0"
  | .R1 s => .obj [("R1", s.toJ)]
  | .R2 s => .obj [("R2", s.toJ)]
  | .Done sig => .obj [("Done", .num sig)]

/-- The derived deserializer of `musig2::SignRound`. -/
def Musig2.SignRound.fromJ : J → Option Musig2.SignRound
  | .str "R0" => some .R0
  | .obj [("R1", sJ)] => (Musig2.Signer.fromJ sJ).map .R1
  | .obj [("R2", sJ)] => (Musig2.Signer.fromJ sJ).map .R2
  | .obj [("Done", .num sig)] => some (.Done sig)
  | _ => none

/-- The derived serializer of `musig2::SignContext`. -/
def Musig2.SignContext.toJ (s : Musig2.SignContext) : J :=
  .obj [("setup", s.setup.toJ), ("initial_signer", s.initial_signer.toJ),
        ("message", optJ (fun b => .arr (b.map J.num)) s.message),
        ("indices", optJ (fun l => .arr (l.map J.num)) s.indices),
        ("round", s.round.toJ)]

/-- The derived deserializer of `musig2::SignContext`. -/
def Musig2.SignContext.fromJ : J → Option Musig2.SignContext
  | .obj [("setup", sJ), ("initial_signer", iJ), ("message", mJ), ("indices", idxJ),
          ("round", rJ)] => do
    let setup ← Musig2.Setup.fromJ sJ
    let initial_signer ← Musig2.Signer.fromJ iJ
    let message ← decOptNums mJ
    let indices ← decOptNums idxJ
    let round ← Musig2.SignRound.fromJ rJ
    some { setup := setup, initial_signer := initial_signer, message := message,
           indices := indices, round := round }
  | _ => none

/-- The `typetag`-tagged serializer behind `protocol_serialize`
(c_api.rs:121-126): the engine kind name plus the engine state. -/
def CApi.EngineState.toJ : CApi.EngineState → J
  | .gg18Keygen s => .obj [("type", .str "gg18_keygen"), ("value", s.toJ)]
  | .gg18Sign s => .obj [("type", .str "gg18_sign"), ("value", s.toJ)]
  | .m2Keygen s => .obj [("type", .str "musig2_keygen"), ("value", s.toJ)]
  | .m2Sign s => .obj [("type", .str "musig2_sign"), ("value", s.toJ)]

/-- The `typetag`-tagged deserializer behind `protocol_deserialize`
(c_api.rs:130-133): reconstructs the concrete engine named by the tag. -/
def CApi.EngineState.fromJ : J → Option CApi.EngineState
  | .obj [("type", .str "gg18_keygen"), ("value", j)] =>
    (GG18.KeygenContext.fromJ j).map .gg18Keygen
  | .obj [("type", .str "gg18_sign"), ("value", j)] =>
    (GG18.SignContext.fromJ j).map .gg18Sign
  | .obj [("type", .str "musig2_keygen"), ("value", j)] =>
    (Musig2.KeygenContext.fromJ j).map .m2Keygen
  | .obj [("type", .str "musig2_sign"), ("value", j)] =>
    (Musig2.SignContext.fromJ j).map .m2Sign
  | _ => none

/-! ## Verification helpers

Round numbering per engine, trace runners, and concrete instantiations of
the external-library parameters used by witness and counterexample
theorems. -/

/-- The round number of a GG18 keygen state (`Done` is round 6). -/
def GG18.KeygenRound.num : GG18.KeygenRound → Nat
  | .R0 => 0
  | .R1 _ => 1
  | .R2 _ => 2
  | .R3 _ => 3
  | .R4 _ => 4
  | .R5 _ => 5
  | .Done _ => 6

/-- Whether a GG18 keygen state is terminal. -/
def GG18.KeygenRound.isDone : GG18.KeygenRound → Bool
  | .Done _ => true
  | _ => false

/-- The round number of a GG18 sign state (`Done` is round 10). -/
def GG18.SignRound.num : GG18.SignRound → Nat
  | .R0 _ => 0
  | .R1 _ => 1
  | .R2 _ => 2
  | .R3 _ => 3
  | .R4 _ => 4
  | .R5 _ => 5
  | .R6 _ => 6
  | .R7 _ => 7
  | .R8 _ => 8
  | .R9 _ => 9
  | .Done _ => 10

/-- Whether a GG18 sign state is terminal. -/
def GG18.SignRound.isDone : GG18.SignRound → Bool
  | .Done _ => true
  | _ => false

/-- The round number of a MuSig2 keygen state (`Done` is round 2). -/
def Musig2.KeygenRound.num : Musig2.KeygenRound → Nat
  | .R0 => 0
  | .R1 _ _ => 1
  | .Done _ _ => 2

/-- Whether a MuSig2 keygen state is terminal. -/
def Musig2.KeygenRound.isDone : Musig2.KeygenRound → Bool
  | .Done _ _ => true
  | _ => false

/-- The round number of a MuSig2 sign state (`Done` is round 3). -/
def Musig2.SignRound.num : Musig2.SignRound → Nat
  | .R0 => 0
  | .R1 _ => 1
  | .R2 _ => 2
  | .Done _ => 3

/-- Whether a MuSig2 sign state is terminal. -/
def Musig2.SignRound.isDone : Musig2.SignRound → Bool
  | .Done _ => true
  | _ => false

/-- Runs a GG18 keygen engine over a list of inbound messages, `none` as
soon as an advance is not a successful return. -/
def GG18.keygenRun (lib : GG18.GG18KeygenLib) (s : GG18.KeygenContext) :
    List WireIn → Option GG18.KeygenContext
  | [] => some s
  | d :: rest =>
    match s.advance lib d with
    | (s', .ok _) => GG18.keygenRun lib s' rest
    | _ => none

/-- Runs a GG18 sign engine over a list of inbound messages. -/
def GG18.signRun (lib : GG18.GG18SignLib) (s : GG18.SignContext) :
    List WireIn → Option GG18.SignContext
  | [] => some s
  | d :: rest =>
    match s.advance lib d with
    | (s', .ok _) => GG18.signRun lib s' rest
    | _ => none

/-- Runs a MuSig2 keygen engine over a list of inbound messages. -/
def Musig2.keygenRun (fresh : Musig2.Signer) (s : Musig2.KeygenContext) :
    List WireIn → Option Musig2.KeygenContext
  | [] => some s
  | d :: rest =>
    match s.advance fresh d with
    | (s', .ok _) => Musig2.keygenRun fresh s' rest
    | _ => none

/-- Runs a MuSig2 sign engine over a list of inbound messages. -/
def Musig2.signRun (s : Musig2.SignContext) : List WireIn → Option Musig2.SignContext
  | [] => some s
  | d :: rest =>
    match s.advance d with
    | (s', .ok _) => Musig2.signRun s' rest
    | _ => none

/-- A concrete instantiation of the GG18 keygen round functions in which
every round succeeds (used to evaluate the engine at concrete inputs). -/
def trivKeygenLib : GG18.GG18KeygenLib where
  kg1 := fun _ _ _ => .ok ([], 1)
  kg2 := fun _ _ => .ok ([], 2)
  kg3 := fun _ _ => .ok ([], 3)
  kg4 := fun _ _ => .ok ([], 4)
  kg5 := fun _ _ => .ok ([], 5)
  kg6 := fun _ _ => .ok 6
  pkBytes := fun _ => [2, 0]
  serCtx := fun c => [c]

/-- A concrete instantiation of the GG18 signing round functions in which
every round succeeds. -/
def trivSignLib : GG18.GG18SignLib where
  parseCtx := fun b => b.head?
  sg1 := fun _ _ _ _ => .ok ([], 1)
  sg2 := fun _ _ => .ok ([], 2)
  sg3 := fun _ _ => .ok ([], 3)
  sg4 := fun _ _ => .ok ([], 4)
  sg5 := fun _ _ => .ok ([], 5)
  sg6 := fun _ _ => .ok ([], 6)
  sg7 := fun _ _ => .ok ([], 7)
  sg8 := fun _ _ => .ok ([], 8)
  sg9 := fun _ _ => .ok ([], 9)
  sg10 := fun _ _ => .ok [9, 9]

/-- Extracts the decoded value of a well-formed serde-encoded map value. -/
def deserVal (b : Bytes) : Bytes :=
  match deserBytes b with
  | .ok v => v
  | .error _ => []

/-- The (key, value) pair a `deserialize_musig` chunk contributes. -/
def chunkPair (c : Bytes) : Nat × Bytes := (c.getLast?.getD 0, c.dropLast)

/-- Checks that every map value decodes under the serde layer and that its
decoded payload splits into whole `k`-byte chunks. -/
def alignedEntries (k : Nat) (l : List (Nat × Bytes)) : Bool :=
  l.all (fun e =>
    match deserBytes e.2 with
    | .ok v => v.length % k == 0
    | .error _ => false)

/-- A well-formed-but-inert server message for driving GG18 rounds. -/
def svGg : WireIn := .server { protocol_type := 0, broadcasts := [], unicasts := [] }

/-- A six-input trace driving a GG18 keygen engine to its terminal state
under `trivKeygenLib`. -/
def gg18KeygenTrace : List WireIn :=
  [.groupInit { protocol_type := 0, index := 1, parties := 2, threshold := 2 },
   svGg, svGg, svGg, svGg, svGg]

/-- A ten-input trace driving a GG18 sign engine to its terminal state under
`trivSignLib`. -/
def gg18SignTrace : List WireIn :=
  [.signInit { protocol_type := 0, indices := [1, 2], index := 1, data := [104] },
   svGg, svGg, svGg, svGg, svGg, svGg, svGg, svGg, svGg]

/-- A two-input trace driving a MuSig2 keygen engine to its terminal
state. -/
def m2KeygenTrace : List WireIn :=
  [.groupInit { protocol_type := 3, index := 1, parties := 2, threshold := 2 },
   .server { protocol_type := 3, broadcasts := [(2, serBytes (Musig2.natBytes 33 0))],
             unicasts := [] }]

/-- A freshly constructed MuSig2 sign engine. -/
def m2SignCtx0 : Musig2.SignContext :=
  { setup := { threshold := 2, parties := 2, index := 1 },
    initial_signer := Musig2.Signer.fresh 2, message := none, indices := none,
    round := .R0 }

/-- A three-input trace driving a MuSig2 sign engine to its terminal
state. -/
def m2SignTrace : List WireIn :=
  [.signInit { protocol_type := 3, indices := [1, 2], index := 1, data := [104] },
   .server { protocol_type := 3, broadcasts := [(2, serBytes (Musig2.natBytes 67 0))],
             unicasts := [] },
   .server { protocol_type := 3, broadcasts := [(2, serBytes (Musig2.natBytes 33 5))],
             unicasts := [] }]

/-- The key a chunk contributes to the deduplicated map. -/
def chunkKey (c : Bytes) : Nat := c.getLast?.getD 0

/-- A 34-byte inbound broadcast value (not a whole number of 67-byte
chunks). -/
def c8A : Bytes := List.replicate 34 0

/-- A 100-byte inbound broadcast value; together with `c8A` the
concatenation is 134 = 2 × 67 bytes, but the chunk boundaries depend on the
concatenation order. -/
def c8B : Bytes :=
  (List.range 100).map (fun i =>
    if i = 32 then 1 else if i = 66 then 3 else if i = 99 then 2 else 0)

/-- A signer state as it stands in the first signing round. -/
def c8signer : Musig2.Signer :=
  { sk := 1, pk := 9, aggCtx := some [5, 9], nonce := some 2, psig := none, received := [] }

/-- A MuSig2 sign engine sitting in round R1. -/
def c8ctx : Musig2.SignContext :=
  { setup := { threshold := 2, parties := 2, index := 1 },
    initial_signer := c8signer, message := some [104, 105], indices := some [1, 2],
    round := .R1 c8signer }

/-! ## State-machine lemmas

An advance that returns `Err` leaves the engine state untouched, and a
successful advance moves the round number up by exactly one — for each of
the four engines. -/

theorem GG18.keygen_err_eq (lib : GG18.GG18KeygenLib) (s s' : GG18.KeygenContext)
    (d : WireIn) (e : String) (h : s.advance lib d = (s', .err e)) : s' = s := by
  unfold GG18.KeygenContext.advance GG18.KeygenContext.init GG18.KeygenContext.update at h
  repeat' (first | split at h | simp only [] at h)
  all_goals rw [Prod.mk.injEq] at h
  all_goals obtain ⟨h1, h2⟩ := h
  all_goals first
    | exact Outcome.noConfusion h2
    | exact h1.symm

theorem GG18.keygen_ok_num (lib : GG18.GG18KeygenLib) (s s' : GG18.KeygenContext)
    (d : WireIn) (out : ClientMessage) (h : s.advance lib d = (s', .ok out)) :
    s'.round.num = s.round.num + 1 := by
  unfold GG18.KeygenContext.advance GG18.KeygenContext.init GG18.KeygenContext.update at h
  repeat' (first | split at h | simp only [] at h)
  all_goals rw [Prod.mk.injEq] at h
  all_goals obtain ⟨h1, h2⟩ := h
  all_goals first
    | exact Outcome.noConfusion h2
    | (subst h1; simp_all [GG18.KeygenRound.num])

theorem GG18.sign_err_eq (lib : GG18.GG18SignLib) (s s' : GG18.SignContext)
    (d : WireIn) (e : String) (h : s.advance lib d = (s', .err e)) : s' = s := by
  unfold GG18.SignContext.advance GG18.SignContext.init GG18.SignContext.update at h
  repeat' (first | split at h | simp only [] at h)
  all_goals rw [Prod.mk.injEq] at h
  all_goals obtain ⟨h1, h2⟩ := h
  all_goals first
    | exact Outcome.noConfusion h2
    | exact h1.symm

theorem GG18.sign_ok_num (lib : GG18.GG18SignLib) (s s' : GG18.SignContext)
    (d : WireIn) (out : ClientMessage) (h : s.advance lib d = (s', .ok out)) :
    s'.round.num = s.round.num + 1 := by
  unfold GG18.SignContext.advance GG18.SignContext.init GG18.SignContext.update at h
  repeat' (first | split at h | simp only [] at h)
  all_goals rw [Prod.mk.injEq] at h
  all_goals obtain ⟨h1, h2⟩ := h
  all_goals first
    | exact Outcome.noConfusion h2
    | (subst h1; simp_all [GG18.SignRound.num])

theorem Musig2.m2_keygen_err_eq (fresh : Musig2.Signer) (s s' : Musig2.KeygenContext)
    (d : WireIn) (e : String) (h : s.advance fresh d = (s', .err e)) : s' = s := by
  unfold Musig2.KeygenContext.advance Musig2.KeygenContext.init Musig2.KeygenContext.update at h
  repeat' (first | split at h | simp only [] at h)
  all_goals rw [Prod.mk.injEq] at h
  all_goals obtain ⟨h1, h2⟩ := h
  all_goals first
    | exact Outcome.noConfusion h2
    | exact h1.symm

theorem Musig2.m2_keygen_ok_num (fresh : Musig2.Signer) (s s' : Musig2.KeygenContext)
    (d : WireIn) (out : ClientMessage × Recipient)
    (h : s.advance fresh d = (s', .ok out)) :
    s'.round.num = s.round.num + 1 := by
  unfold Musig2.KeygenContext.advance Musig2.KeygenContext.init Musig2.KeygenContext.update at h
  repeat' (first | split at h | simp only [] at h)
  all_goals rw [Prod.mk.injEq] at h
  all_goals obtain ⟨h1, h2⟩ := h
  all_goals first
    | exact Outcome.noConfusion h2
    | (subst h1; simp_all [Musig2.KeygenRound.num])

theorem Musig2.m2_sign_err_eq (s s' : Musig2.SignContext)
    (d : WireIn) (e : String) (h : s.advance d = (s', .err e)) : s' = s := by
  unfold Musig2.SignContext.advance Musig2.SignContext.init Musig2.SignContext.update at h
  repeat' (first | split at h | simp only [] at h)
  all_goals rw [Prod.mk.injEq] at h
  all_goals obtain ⟨h1, h2⟩ := h
  all_goals first
    | exact Outcome.noConfusion h2
    | exact h1.symm
    | simp_all [Musig2.Signer.first_round, Musig2.Signer.get_pubnonce]

theorem Musig2.m2_sign_ok_num (s s' : Musig2.SignContext)
    (d : WireIn) (out : ClientMessage × Recipient) (h : s.advance d = (s', .ok out)) :
    s'.round.num = s.round.num + 1 := by
  unfold Musig2.SignContext.advance Musig2.SignContext.init Musig2.SignContext.update at h
  repeat' (first | split at h | simp only [] at h)
  all_goals rw [Prod.mk.injEq] at h
  all_goals obtain ⟨h1, h2⟩ := h
  all_goals first
    | exact Outcome.noConfusion h2
    | (subst h1; simp_all [Musig2.SignRound.num])

theorem GG18.keygenRun_num (lib : GG18.GG18KeygenLib) (ds : List WireIn) :
    ∀ s s' : GG18.KeygenContext, GG18.keygenRun lib s ds = some s' →
      s'.round.num = s.round.num + ds.length := by
  induction ds with
  | nil =>
    intro s s' h
    simp only [GG18.keygenRun, Option.some.injEq] at h
    subst h
    simp
  | cons d rest ih =>
    intro s s' h
    unfold GG18.keygenRun at h
    split at h
    · next s1 out heq =>
      have h1 := GG18.keygen_ok_num lib s s1 d out heq
      have h2 := ih s1 s' h
      simp only [List.length_cons]
      omega
    · exact absurd h (by simp)

theorem GG18.signRun_num (lib : GG18.GG18SignLib) (ds : List WireIn) :
    ∀ s s' : GG18.SignContext, GG18.signRun lib s ds = some s' →
      s'.round.num = s.round.num + ds.length := by
  induction ds with
  | nil =>
    intro s s' h
    simp only [GG18.signRun, Option.some.injEq] at h
    subst h
    simp
  | cons d rest ih =>
    intro s s' h
    unfold GG18.signRun at h
    split at h
    · next s1 out heq =>
      have h1 := GG18.sign_ok_num lib s s1 d out heq
      have h2 := ih s1 s' h
      simp only [List.length_cons]
      omega
    · exact absurd h (by simp)

theorem Musig2.m2_keygenRun_num (fresh : Musig2.Signer) (ds : List WireIn) :
    ∀ s s' : Musig2.KeygenContext, Musig2.keygenRun fresh s ds = some s' →
      s'.round.num = s.round.num + ds.length := by
  induction ds with
  | nil =>
    intro s s' h
    simp only [Musig2.keygenRun, Option.some.injEq] at h
    subst h
    simp
  | cons d rest ih =>
    intro s s' h
    unfold Musig2.keygenRun at h
    split at h
    · next s1 out heq =>
      have h1 := Musig2.m2_keygen_ok_num fresh s s1 d out heq
      have h2 := ih s1 s' h
      simp only [List.length_cons]
      omega
    · exact absurd h (by simp)

theorem Musig2.m2_signRun_num (ds : List WireIn) :
    ∀ s s' : Musig2.SignContext, Musig2.signRun s ds = some s' →
      s'.round.num = s.round.num + ds.length := by
  induction ds with
  | nil =>
    intro s s' h
    simp only [Musig2.signRun, Option.some.injEq] at h
    subst h
    simp
  | cons d rest ih =>
    intro s s' h
    unfold Musig2.signRun at h
    split at h
    · next s1 out heq =>
      have h1 := Musig2.m2_sign_ok_num s s1 d out heq
      have h2 := ih s1 s' h
      simp only [List.length_cons]
      omega
    · exact absurd h (by simp)

theorem GG18.keygen_done_iff_num (r : GG18.KeygenRound) : r.isDone = true ↔ r.num = 6 := by
  cases r <;> simp [GG18.KeygenRound.isDone, GG18.KeygenRound.num]

theorem GG18.sign_done_iff_num (r : GG18.SignRound) : r.isDone = true ↔ r.num = 10 := by
  cases r <;> simp [GG18.SignRound.isDone, GG18.SignRound.num]

theorem Musig2.m2_keygen_done_iff_num (r : Musig2.KeygenRound) : r.isDone = true ↔ r.num = 2 := by
  cases r <;> simp [Musig2.KeygenRound.isDone, Musig2.KeygenRound.num]

theorem Musig2.m2_sign_done_iff_num (r : Musig2.SignRound) : r.isDone = true ↔ r.num = 3 := by
  cases r <;> simp [Musig2.SignRound.isDone, Musig2.SignRound.num]

end MeesignCrypto

namespace MeesignCrypto

/-! ## Snapshot codec round-trip lemmas -/

theorem decNums_map (l : List Nat) : decNums (l.map J.num) = some l := by
  induction l with
  | nil => rfl
  | cons a rest ih => simp [decNums, ih]

theorem decPairs_map (l : List (Nat × Nat)) :
    decPairs (l.map (fun p => J.arr [J.num p.1, J.num p.2])) = some l := by
  induction l with
  | nil => rfl
  | cons a rest ih => simp [decPairs, ih]

theorem decOptNum_optJ (o : Option Nat) : decOptNum (optJ J.num o) = some o := by
  cases o <;> rfl

theorem decOptNums_optJ (o : Option (List Nat)) :
    decOptNums (optJ (fun b => J.arr (b.map J.num)) o) = some o := by
  cases o with
  | none => rfl
  | some l => simp [optJ, decOptNums, decNums_map]

theorem setup_fromJ_toJ (s : Musig2.Setup) : Musig2.Setup.fromJ s.toJ = some s := by
  rfl

set_option maxHeartbeats 1600000 in
theorem signer_fromJ_toJ (s : Musig2.Signer) : Musig2.Signer.fromJ s.toJ = some s := by
  cases s
  simp [Musig2.Signer.toJ, Musig2.Signer.fromJ, decOptNums_optJ, decOptNum_optJ,
    decPairs_map]

set_option maxHeartbeats 1600000 in
theorem gg18_keygenRound_fromJ_toJ (r : GG18.KeygenRound) :
    GG18.KeygenRound.fromJ r.toJ = some r := by
  cases r <;> rfl

set_option maxHeartbeats 3200000 in
theorem gg18_signRound_fromJ_toJ (r : GG18.SignRound) :
    GG18.SignRound.fromJ r.toJ = some r := by
  cases r
  case Done sig => simp [GG18.SignRound.toJ, GG18.SignRound.fromJ, decNums_map]
  all_goals rfl

set_option maxHeartbeats 1600000 in
theorem m2_keygenRound_fromJ_toJ (r : Musig2.KeygenRound) :
    Musig2.KeygenRound.fromJ r.toJ = some r := by
  cases r
  case R0 => rfl
  all_goals
    simp [Musig2.KeygenRound.toJ, Musig2.KeygenRound.fromJ, setup_fromJ_toJ,
      signer_fromJ_toJ]

set_option maxHeartbeats 1600000 in
theorem m2_signRound_fromJ_toJ (r : Musig2.SignRound) :
    Musig2.SignRound.fromJ r.toJ = some r := by
  cases r
  case R0 => rfl
  all_goals simp [Musig2.SignRound.toJ, Musig2.SignRound.fromJ, signer_fromJ_toJ]

/-! ## Permutation-invariance lemmas for the MuSig2 peer-map pipeline -/

theorem insertionSort_perm_eq {α : Type} (r : α → α → Prop) [DecidableRel r]
    [IsTotal α r] [IsTrans α r] [IsAntisymm α r] {l1 l2 : List α} (h : l1.Perm l2) :
    l1.insertionSort r = l2.insertionSort r :=
  List.eq_of_perm_of_sorted
    (((List.perm_insertionSort r l1).trans h).trans (List.perm_insertionSort r l2).symm)
    (List.sorted_insertionSort r l1) (List.sorted_insertionSort r l2)

theorem sortNat_perm_eq {l1 l2 : List Nat} (h : l1.Perm l2) :
    Musig2.sortNat l1 = Musig2.sortNat l2 :=
  insertionSort_perm_eq _ h

theorem sortPairs_perm_eq {l1 l2 : List (Nat × Nat)} (h : l1.Perm l2) :
    Musig2.sortPairs l1 = Musig2.sortPairs l2 :=
  insertionSort_perm_eq _ h

theorem collectMap_aux (l : List (Nat × Bytes)) :
    ∀ acc : List (Nat × Bytes),
      ((acc ++ l).map Prod.fst).Nodup →
      l.foldl (fun m e => insertEntry m e.1 e.2) acc = acc ++ l := by
  induction l with
  | nil => intro acc _; simp
  | cons e rest ih =>
    intro acc hnd
    have hdisj : (acc.map Prod.fst).Disjoint (e.1 :: rest.map Prod.fst) := by
      have h2 := List.nodup_append.mp (by simpa using hnd)
      exact h2.2.2
    have hk : acc.any (fun x => x.1 == e.1) = false := by
      rw [List.any_eq_false]
      intro x hx
      simp only [beq_iff_eq]
      intro hxe
      exact hdisj (hxe ▸ List.mem_map_of_mem Prod.fst hx) (List.mem_cons_self _ _)
    have hstep : insertEntry acc e.1 e.2 = acc ++ [e] := by
      simp [insertEntry, hk]
    rw [List.foldl_cons, hstep, ih (acc ++ [e]) (by simpa [List.append_assoc] using hnd)]
    simp

theorem collectMap_nodup_eq {l : List (Nat × Bytes)} (h : (l.map Prod.fst).Nodup) :
    collectMap l = l := by
  have := collectMap_aux l [] (by simpa using h)
  simpa [collectMap] using this

theorem deserEntries_ok (l : List (Nat × Bytes))
    (h : ∀ e ∈ l, (deserBytes e.2).isOk = true) :
    deserEntries l = .ok (l.map (fun e => (e.1, deserVal e.2))) := by
  induction l with
  | nil => rfl
  | cons e rest ih =>
    have he := h e (List.mem_cons_self _ _)
    have hrest := ih (fun x hx => h x (List.mem_cons_of_mem _ hx))
    cases hd : deserBytes e.2 with
    | error msg => simp [hd, Except.isOk, Except.toBool] at he
    | ok v => simp [deserEntries, hd, hrest, deserVal]

theorem deserialize_map_ok {l : List (Nat × Bytes)} (hnd : (l.map Prod.fst).Nodup)
    (h : ∀ e ∈ l, (deserBytes e.2).isOk = true) :
    deserialize_map (collectMap l) = .ok (l.map (fun e => (e.1, deserVal e.2))) := by
  rw [collectMap_nodup_eq hnd]
  unfold deserialize_map
  rw [deserEntries_ok l h]
  simp only [Except.map]
  rw [collectMap_nodup_eq (by simpa using hnd)]

theorem chunksAux_congr (k : Nat) :
    ∀ (f1 f2 : Nat) (l : Bytes), l.length ≤ f1 → l.length ≤ f2 →
      Musig2.chunksAux k f1 l = Musig2.chunksAux k f2 l := by
  intro f1
  induction f1 with
  | zero =>
    intro f2 l h1 _
    have : l = [] := List.eq_nil_of_length_eq_zero (Nat.le_zero.mp h1)
    subst this
    cases f2 <;> rfl
  | succ f ih =>
    intro f2 l h1 h2
    cases l with
    | nil => cases f2 <;> rfl
    | cons b rest =>
      cases f2 with
      | zero => simp at h2
      | succ f2' =>
        by_cases hk : k = 0
        · simp [Musig2.chunksAux, hk]
        · simp only [Musig2.chunksAux, hk, if_false]
          congr 1
          simp only [List.length_cons] at h1 h2
          exact ih f2' ((b :: rest).drop k)
            (by simp only [List.length_drop, List.length_cons]; omega)
            (by simp only [List.length_drop, List.length_cons]; omega)

theorem chunksExact_cons (k : Nat) (hk : 0 < k) (b : Nat) (rest : Bytes) :
    Musig2.chunksExact k (b :: rest)
      = (b :: rest).take k :: Musig2.chunksExact k ((b :: rest).drop k) := by
  show Musig2.chunksAux k (b :: rest).length (b :: rest) = _
  simp only [List.length_cons, Musig2.chunksAux, Nat.pos_iff_ne_zero.mp hk, if_false]
  congr 1
  exact chunksAux_congr k rest.length ((b :: rest).drop k).length ((b :: rest).drop k)
    (by simp; omega) (Nat.le_refl _)

theorem chunksExact_append (k : Nat) (hk : 0 < k) :
    ∀ (n : Nat) (a b : Bytes), a.length = n → k ∣ a.length →
      Musig2.chunksExact k (a ++ b) = Musig2.chunksExact k a ++ Musig2.chunksExact k b := by
  intro n
  induction n using Nat.strong_induction_on with
  | _ n ih =>
    intro a b hlen hdvd
    cases a with
    | nil =>
      simp [Musig2.chunksExact, Musig2.chunksAux]
    | cons x rest =>
      have hk_le : k ≤ (x :: rest).length := Nat.le_of_dvd (by simp) hdvd
      rw [show (x :: rest) ++ b = x :: (rest ++ b) from rfl]
      rw [chunksExact_cons k hk x (rest ++ b), chunksExact_cons k hk x rest]
      rw [show x :: (rest ++ b) = (x :: rest) ++ b from rfl]
      rw [List.take_append_of_le_length hk_le, List.drop_append_of_le_length hk_le]
      rw [List.cons_append]
      congr 1
      have hlt : ((x :: rest).drop k).length < n := by
        simp only [List.length_drop]
        omega
      have hdvd2 : k ∣ ((x :: rest).drop k).length := by
        simp only [List.length_drop]
        exact (Nat.dvd_sub' hdvd (Nat.dvd_refl k))
      exact ih _ hlt _ b rfl hdvd2

theorem chunksExact_flatten (k : Nat) (hk : 0 < k) :
    ∀ l : List Bytes, (∀ x ∈ l, k ∣ x.length) →
      Musig2.chunksExact k l.flatten = l.flatMap (Musig2.chunksExact k) := by
  intro l
  induction l with
  | nil => intro _; rfl
  | cons x rest ih =>
    intro h
    rw [List.flatten_cons, List.flatMap_cons]
    rw [chunksExact_append k hk x.length x rest.flatten rfl
      (h x (List.mem_cons_self _ _))]
    rw [ih (fun y hy => h y (List.mem_cons_of_mem _ hy))]

theorem buildDedup_ok :
    ∀ (cs : List Bytes) (acc : List (Nat × Bytes)),
      (acc.map Prod.fst ++ cs.map chunkKey).Nodup →
      Musig2.buildDedup cs acc = .ok (acc ++ cs.map chunkPair) := by
  intro cs
  induction cs with
  | nil => intro acc _; simp [Musig2.buildDedup]
  | cons c rest ih =>
    intro acc hnd
    have hdisj := (List.nodup_append.mp hnd).2.2
    have hk : acc.any (fun e => e.1 == chunkKey c) = false := by
      rw [List.any_eq_false]
      intro x hx
      simp only [beq_iff_eq]
      intro hxe
      exact hdisj (hxe ▸ List.mem_map_of_mem Prod.fst hx)
        (by simp [chunkKey, List.mem_cons_self])
    have hnd2 : ((acc ++ [(chunkKey c, c.dropLast)]).map Prod.fst
        ++ rest.map chunkKey).Nodup := by
      simpa [chunkKey] using hnd
    rw [show Musig2.buildDedup (c :: rest) acc
        = if acc.any (fun e => e.1 == chunkKey c) = true then
            Except.error "Duplicate key found"
          else Musig2.buildDedup rest (acc ++ [(chunkKey c, c.dropLast)]) from rfl]
    rw [hk]
    simp only [Bool.false_eq_true, if_false]
    rw [ih (acc ++ [(chunkKey c, c.dropLast)]) hnd2]
    simp [chunkPair, chunkKey]

theorem buildDedup_err :
    ∀ (cs : List Bytes) (acc : List (Nat × Bytes)),
      (acc.map Prod.fst).Nodup →
      ¬ (acc.map Prod.fst ++ cs.map chunkKey).Nodup →
      Musig2.buildDedup cs acc = .error "Duplicate key found" := by
  intro cs
  induction cs with
  | nil =>
    intro acc hacc hnd
    exact absurd (by simpa using hacc) hnd
  | cons c rest ih =>
    intro acc hacc hnd
    by_cases hk : acc.any (fun e => e.1 == chunkKey c) = true
    · rw [show Musig2.buildDedup (c :: rest) acc
          = if acc.any (fun e => e.1 == chunkKey c) = true then
              Except.error "Duplicate key found"
            else Musig2.buildDedup rest (acc ++ [(chunkKey c, c.dropLast)]) from rfl]
      rw [hk]
      simp
    · rw [Bool.not_eq_true] at hk
      have hkf : acc.any (fun e => e.1 == chunkKey c) = false := hk
      have hknot : chunkKey c ∉ acc.map Prod.fst := by
        rw [List.any_eq_false] at hkf
        intro hmem
        obtain ⟨x, hx, hxe⟩ := List.mem_map.mp hmem
        exact absurd hxe (by simpa using hkf x hx)
      have hacc2 : ((acc ++ [(chunkKey c, c.dropLast)]).map Prod.fst).Nodup := by
        simp only [List.map_append, List.map_cons, List.map_nil]
        rw [List.nodup_append]
        refine ⟨hacc, List.nodup_singleton _, ?_⟩
        intro a ha hb
        simp only [List.mem_singleton] at hb
        exact hknot (hb ▸ ha)
      have hnd2 : ¬ ((acc ++ [(chunkKey c, c.dropLast)]).map Prod.fst
          ++ rest.map chunkKey).Nodup := by
        intro hcontra
        apply hnd
        simpa [chunkKey] using hcontra
      rw [show Musig2.buildDedup (c :: rest) acc
          = if acc.any (fun e => e.1 == chunkKey c) = true then
              Except.error "Duplicate key found"
            else Musig2.buildDedup rest (acc ++ [(chunkKey c, c.dropLast)]) from rfl]
      rw [hkf]
      simp only [Bool.false_eq_true, if_false]
      exact ih (acc ++ [(chunkKey c, c.dropLast)]) hacc2 hnd2

theorem perm_all_eq {α : Type} {l1 l2 : List α} (h : l1.Perm l2) (p : α → Bool) :
    l1.all p = l2.all p := by
  rw [Bool.eq_iff_iff, List.all_eq_true, List.all_eq_true]
  constructor
  · intro ha x hx
    exact ha x (h.mem_iff.mpr hx)
  · intro ha x hx
    exact ha x (h.mem_iff.mp hx)

theorem deserialize_musig_perm (k : Nat) (hk : 0 < k) {v1 v2 : List Bytes}
    (hperm : v1.Perm v2) (hdvd : ∀ x ∈ v1, k ∣ x.length) :
    (∃ e, Musig2.deserialize_musig v1 k = .error e
       ∧ Musig2.deserialize_musig v2 k = .error e)
    ∨ (∃ r1 r2, Musig2.deserialize_musig v1 k = .ok r1
       ∧ Musig2.deserialize_musig v2 k = .ok r2 ∧ r1.Perm r2) := by
  have hdvd2 : ∀ x ∈ v2, k ∣ x.length := fun x hx => hdvd x (hperm.mem_iff.mpr hx)
  have hflat : (Musig2.chunksExact k v1.flatten).Perm (Musig2.chunksExact k v2.flatten) := by
    rw [chunksExact_flatten k hk v1 hdvd, chunksExact_flatten k hk v2 hdvd2]
    simp only [List.flatMap_def]
    exact (hperm.map (Musig2.chunksExact k)).flatten
  have hlen : v1.flatten.length = v2.flatten.length := hperm.flatten.length_eq
  have hunf : ∀ v : List Bytes, Musig2.deserialize_musig v k
      = if v.flatten.length % k ≠ 0 then
          .error "Input data length must be a multiple of the input size"
        else Musig2.buildDedup (Musig2.chunksExact k v.flatten) [] := fun _ => rfl
  by_cases hmod : v1.flatten.length % k ≠ 0
  · left
    refine ⟨"Input data length must be a multiple of the input size", ?_, ?_⟩
    · rw [hunf v1, if_pos hmod]
    · have h2 : v2.flatten.length % k ≠ 0 := by rw [← hlen]; exact hmod
      rw [hunf v2, if_pos h2]
  · push_neg at hmod
    have hmod2 : v2.flatten.length % k = 0 := by rw [← hlen]; exact hmod
    by_cases hnd : ((Musig2.chunksExact k v1.flatten).map chunkKey).Nodup
    · right
      have hnd2 : ((Musig2.chunksExact k v2.flatten).map chunkKey).Nodup :=
        ((hflat.map chunkKey).nodup_iff).mp hnd
      refine ⟨(Musig2.chunksExact k v1.flatten).map chunkPair,
              (Musig2.chunksExact k v2.flatten).map chunkPair, ?_, ?_, ?_⟩
      · rw [hunf v1, if_neg (by simpa using hmod)]
        rw [buildDedup_ok _ [] (by simpa using hnd)]
        simp
      · rw [hunf v2, if_neg (by simpa using hmod2)]
        rw [buildDedup_ok _ [] (by simpa using hnd2)]
        simp
      · exact hflat.map chunkPair
    · left
      have hnd2 : ¬ ((Musig2.chunksExact k v2.flatten).map chunkKey).Nodup := by
        intro hc
        exact hnd (((hflat.map chunkKey).nodup_iff).mpr hc)
      refine ⟨"Duplicate key found", ?_, ?_⟩
      · rw [hunf v1, if_neg (by simpa using hmod)]
        exact buildDedup_err _ [] (by simp) (by simpa using hnd)
      · rw [hunf v2, if_neg (by simpa using hmod2)]
        exact buildDedup_err _ [] (by simp) (by simpa using hnd2)

theorem aligned_deser_ok {k : Nat} {l : List (Nat × Bytes)}
    (hal : alignedEntries k l = true) :
    ∀ e ∈ l, (deserBytes e.2).isOk = true := by
  intro e he
  have := (List.all_eq_true.mp hal) e he
  cases hd : deserBytes e.2 with
  | error m => rw [hd] at this; simp at this
  | ok v => simp [Except.isOk, Except.toBool]

theorem aligned_dvd {k : Nat} {l : List (Nat × Bytes)}
    (hal : alignedEntries k l = true) :
    ∀ e ∈ l, k ∣ (deserVal e.2).length := by
  intro e he
  have := (List.all_eq_true.mp hal) e he
  cases hd : deserBytes e.2 with
  | error m => rw [hd] at this; simp at this
  | ok v =>
    rw [hd] at this
    simp only [beq_iff_eq] at this
    rw [deserVal, hd]
    exact Nat.dvd_of_mod_eq_zero this

theorem alignedEntries_perm {k : Nat} {l1 l2 : List (Nat × Bytes)}
    (hperm : l1.Perm l2) (hal : alignedEntries k l1 = true) :
    alignedEntries k l2 = true := by
  unfold alignedEntries at hal ⊢
  rw [← perm_all_eq hperm]
  exact hal

theorem m2_sign_update_R1_perm (setup : Musig2.Setup) (isig : Musig2.Signer)
    (msgo : Option Bytes) (idxo : Option (List Nat)) (sg : Musig2.Signer)
    (pt1 pt2 : Int) (b1 b2 u1 u2 : List (Nat × Bytes))
    (hperm : b1.Perm b2) (hnd : (b1.map Prod.fst).Nodup)
    (hal : alignedEntries 67 b1 = true) :
    Musig2.SignContext.update
        { setup := setup, initial_signer := isig, message := msgo, indices := idxo,
          round := .R1 sg }
        (.server { protocol_type := pt1, broadcasts := b1, unicasts := u1 })
      = Musig2.SignContext.update
        { setup := setup, initial_signer := isig, message := msgo, indices := idxo,
          round := .R1 sg }
        (.server { protocol_type := pt2, broadcasts := b2, unicasts := u2 }) := by
  have hnd2 : (b2.map Prod.fst).Nodup := ((hperm.map Prod.fst).nodup_iff).mp hnd
  have hal2 : alignedEntries 67 b2 = true := alignedEntries_perm hperm hal
  have hdm1 := deserialize_map_ok hnd (aligned_deser_ok hal)
  have hdm2 := deserialize_map_ok hnd2 (aligned_deser_ok hal2)
  have hvperm : (b1.map (fun e => (e.1, deserVal e.2))).Perm
      (b2.map (fun e => (e.1, deserVal e.2))) := hperm.map _
  have hsperm : ((b1.map (fun e => (e.1, deserVal e.2))).map Prod.snd).Perm
      ((b2.map (fun e => (e.1, deserVal e.2))).map Prod.snd) := hvperm.map _
  have hdvd : ∀ x ∈ (b1.map (fun e => (e.1, deserVal e.2))).map Prod.snd,
      67 ∣ x.length := by
    intro x hx
    simp only [List.map_map, List.mem_map] at hx
    obtain ⟨e, he, hex⟩ := hx
    rw [← hex]
    exact aligned_dvd hal e he
  simp only [Musig2.SignContext.update, decodeServer]
  rw [hdm1, hdm2]
  simp only [Musig2.PUBNONCE_CHUNK_LEN]
  rcases deserialize_musig_perm 67 (by omega) hsperm hdvd with
    ⟨e, he1, he2⟩ | ⟨r1, r2, hr1, hr2, hr12⟩
  · rw [he1, he2]
  · rw [hr1, hr2]
    cases msgo with
    | none => rfl
    | some m =>
      have hsig : sg.second_round m (r1.map (fun e => (e.1, Musig2.pubnonceFromBytes e.2)))
          = sg.second_round m (r2.map (fun e => (e.1, Musig2.pubnonceFromBytes e.2))) := by
        unfold Musig2.Signer.second_round
        rw [sortPairs_perm_eq (hr12.map _)]
      simp only [hsig]

theorem m2_sign_update_R2_perm (setup : Musig2.Setup) (isig : Musig2.Signer)
    (msgo : Option Bytes) (idxo : Option (List Nat)) (sg : Musig2.Signer)
    (pt1 pt2 : Int) (b1 b2 u1 u2 : List (Nat × Bytes))
    (hperm : b1.Perm b2) (hnd : (b1.map Prod.fst).Nodup)
    (hal : alignedEntries 33 b1 = true) :
    Musig2.SignContext.update
        { setup := setup, initial_signer := isig, message := msgo, indices := idxo,
          round := .R2 sg }
        (.server { protocol_type := pt1, broadcasts := b1, unicasts := u1 })
      = Musig2.SignContext.update
        { setup := setup, initial_signer := isig, message := msgo, indices := idxo,
          round := .R2 sg }
        (.server { protocol_type := pt2, broadcasts := b2, unicasts := u2 }) := by
  have hnd2 : (b2.map Prod.fst).Nodup := ((hperm.map Prod.fst).nodup_iff).mp hnd
  have hal2 : alignedEntries 33 b2 = true := alignedEntries_perm hperm hal
  have hdm1 := deserialize_map_ok hnd (aligned_deser_ok hal)
  have hdm2 := deserialize_map_ok hnd2 (aligned_deser_ok hal2)
  have hvperm : (b1.map (fun e => (e.1, deserVal e.2))).Perm
      (b2.map (fun e => (e.1, deserVal e.2))) := hperm.map _
  have hsperm : ((b1.map (fun e => (e.1, deserVal e.2))).map Prod.snd).Perm
      ((b2.map (fun e => (e.1, deserVal e.2))).map Prod.snd) := hvperm.map _
  have hdvd : ∀ x ∈ (b1.map (fun e => (e.1, deserVal e.2))).map Prod.snd,
      33 ∣ x.length := by
    intro x hx
    simp only [List.map_map, List.mem_map] at hx
    obtain ⟨e, he, hex⟩ := hx
    rw [← hex]
    exact aligned_dvd hal e he
  simp only [Musig2.SignContext.update, decodeServer]
  rw [hdm1, hdm2]
  simp only [Musig2.SCALAR_CHUNK_LEN]
  rcases deserialize_musig_perm 33 (by omega) hsperm hdvd with
    ⟨e, he1, he2⟩ | ⟨r1, r2, hr1, hr2, hr12⟩
  · rw [he1, he2]
  · rw [hr1, hr2]
    have hsig : sg.receive_partial_signatures
          (r1.map (fun e => (e.1, Musig2.foldDigits e.2)))
        = sg.receive_partial_signatures
          (r2.map (fun e => (e.1, Musig2.foldDigits e.2))) := by
      unfold Musig2.Signer.receive_partial_signatures
      rw [sortPairs_perm_eq (hr12.map _)]
    simp only [hsig]

theorem m2_keygen_update_R1_perm (setup : Musig2.Setup) (sg : Musig2.Signer) (wc : Bool)
    (pt1 pt2 : Int) (b1 b2 u1 u2 : List (Nat × Bytes))
    (hperm : b1.Perm b2) (hnd : (b1.map Prod.fst).Nodup)
    (hok : alignedEntries 1 b1 = true) :
    Musig2.KeygenContext.update { round := .R1 setup sg, with_card := wc }
        (.server { protocol_type := pt1, broadcasts := b1, unicasts := u1 })
      = Musig2.KeygenContext.update { round := .R1 setup sg, with_card := wc }
        (.server { protocol_type := pt2, broadcasts := b2, unicasts := u2 }) := by
  have hnd2 : (b2.map Prod.fst).Nodup := ((hperm.map Prod.fst).nodup_iff).mp hnd
  have hok2 : alignedEntries 1 b2 = true := alignedEntries_perm hperm hok
  have hdm1 := deserialize_map_ok hnd (aligned_deser_ok hok)
  have hdm2 := deserialize_map_ok hnd2 (aligned_deser_ok hok2)
  have hsperm : ((b1.map (fun e => (e.1, deserVal e.2))).map Prod.snd).Perm
      ((b2.map (fun e => (e.1, deserVal e.2))).map Prod.snd) := (hperm.map _).map _
  simp only [Musig2.KeygenContext.update, decodeServer]
  rw [hdm1, hdm2]
  simp only []
  have hall := perm_all_eq hsperm (fun v => decide (v.length = 33))
  by_cases hc : ((b1.map (fun e => (e.1, deserVal e.2))).map Prod.snd).all
      (fun v => decide (v.length = 33)) = true
  · have hc2 : ((b2.map (fun e => (e.1, deserVal e.2))).map Prod.snd).all
        (fun v => decide (v.length = 33)) = true := by rw [← hall]; exact hc
    rw [show Musig2.parsePubkeyShares ((b1.map (fun e => (e.1, deserVal e.2))).map Prod.snd)
        = .ok (((b1.map (fun e => (e.1, deserVal e.2))).map Prod.snd).map Musig2.foldDigits)
      from by unfold Musig2.parsePubkeyShares; rw [if_pos hc]]
    rw [show Musig2.parsePubkeyShares ((b2.map (fun e => (e.1, deserVal e.2))).map Prod.snd)
        = .ok (((b2.map (fun e => (e.1, deserVal e.2))).map Prod.snd).map Musig2.foldDigits)
      from by unfold Musig2.parsePubkeyShares; rw [if_pos hc2]]
    have hgen : sg.generate_key_agg_ctx
          (((b1.map (fun e => (e.1, deserVal e.2))).map Prod.snd).map Musig2.foldDigits)
        = sg.generate_key_agg_ctx
          (((b2.map (fun e => (e.1, deserVal e.2))).map Prod.snd).map Musig2.foldDigits) := by
      unfold Musig2.Signer.generate_key_agg_ctx
      rw [sortNat_perm_eq ((hsperm.map Musig2.foldDigits).cons sg.pk)]
    simp only [hgen]
  · have hc2 : ¬ ((b2.map (fun e => (e.1, deserVal e.2))).map Prod.snd).all
        (fun v => decide (v.length = 33)) = true := by rw [← hall]; exact hc
    rw [show Musig2.parsePubkeyShares ((b1.map (fun e => (e.1, deserVal e.2))).map Prod.snd)
        = .fatal "slice with incorrect length"
      from by unfold Musig2.parsePubkeyShares; rw [if_neg hc]]
    rw [show Musig2.parsePubkeyShares ((b2.map (fun e => (e.1, deserVal e.2))).map Prod.snd)
        = .fatal "slice with incorrect length"
      from by unfold Musig2.parsePubkeyShares; rw [if_neg hc2]]

end MeesignCrypto

open MeesignCrypto

/-! ## The claims -/

/-- C1 counterexample: a GG18 keygen engine fed a session-init record whose
declared kind is MuSig2 does not return a wrong-protocol error — the first
advance succeeds and the round state advances out of the initial variant. -/
theorem claim1_counterexample :
    (GG18.KeygenContext.advance trivKeygenLib GG18.KeygenContext.new
        (.groupInit { protocol_type := ProtocolType.Musig2.toInt, index := 1,
                      parties := 2, threshold := 2 })).2.isOk = true
    ∧ (GG18.KeygenContext.advance trivKeygenLib GG18.KeygenContext.new
        (.groupInit { protocol_type := ProtocolType.Musig2.toInt, index := 1,
                      parties := 2, threshold := 2 })).1.round ≠ GG18.KeygenRound.R0 := by
  decide

/-- C1 amended: the MuSig2 engines reject a declared-kind mismatch with a
`wrong protocol type` error and do not advance; the GG18 engines never
examine the declared kind — their behavior is identical for every value of
the `protocol_type` field. -/
theorem claim1_kind_check :
    (∀ (fresh : Musig2.Signer) (wc : Bool) (m : ProtocolGroupInit),
       m.protocol_type ≠ ProtocolType.Musig2.toInt →
       Musig2.KeygenContext.advance fresh { round := .R0, with_card := wc } (.groupInit m)
         = ({ round := .R0, with_card := wc }, .err "wrong protocol type"))
  ∧ (∀ (s : Musig2.SignContext) (m : ProtocolInit),
       s.round = .R0 → m.protocol_type ≠ ProtocolType.Musig2.toInt →
       s.advance (.signInit m) = (s, .err "wrong protocol type"))
  ∧ (∀ (lib : GG18.GG18KeygenLib) (s : GG18.KeygenContext) (m : ProtocolGroupInit)
       (k : Int),
       s.advance lib (.groupInit m)
         = s.advance lib (.groupInit { m with protocol_type := k }))
  ∧ (∀ (lib : GG18.GG18SignLib) (s : GG18.SignContext) (m : ProtocolInit) (k : Int),
       s.advance lib (.signInit m)
         = s.advance lib (.signInit { m with protocol_type := k })) := by
  refine ⟨?_, ?_, ?_, ?_⟩
  · intro fresh wc m hne
    simp [Musig2.KeygenContext.advance, Musig2.KeygenContext.init, decodeGroupInit, hne]
  · intro s m hr hne
    simp [Musig2.SignContext.advance, Musig2.SignContext.init, decodeSignInit, hr, hne]
  · intro lib s m k
    cases hr : s.round <;>
      simp [GG18.KeygenContext.advance, GG18.KeygenContext.init, GG18.KeygenContext.update,
        decodeGroupInit, unpack, decodeServer, hr]
  · intro lib s m k
    cases hr : s.round <;>
      simp [GG18.SignContext.advance, GG18.SignContext.init, GG18.SignContext.update,
        decodeSignInit, unpack, decodeServer, hr]

/-- C1 witness: the amended theorem evaluated at concrete inputs. -/
theorem claim1_witness :
    (Musig2.KeygenContext.advance (Musig2.Signer.fresh 1) { round := .R0, with_card := false }
        (.groupInit { protocol_type := 0, index := 1, parties := 2, threshold := 2 })
      = ({ round := .R0, with_card := false }, .err "wrong protocol type"))
    ∧ ({ setup := { threshold := 2, parties := 2, index := 1 },
         initial_signer := Musig2.Signer.fresh 2, message := none, indices := none,
         round := .R0 } : Musig2.SignContext).advance
        (.signInit { protocol_type := 0, indices := [1, 2], index := 1, data := [] })
      = ({ setup := { threshold := 2, parties := 2, index := 1 },
           initial_signer := Musig2.Signer.fresh 2, message := none, indices := none,
           round := .R0 }, .err "wrong protocol type")
    ∧ GG18.KeygenContext.advance trivKeygenLib GG18.KeygenContext.new
        (.groupInit { protocol_type := 0, index := 1, parties := 2, threshold := 2 })
      = GG18.KeygenContext.advance trivKeygenLib GG18.KeygenContext.new
        (.groupInit { protocol_type := 3, index := 1, parties := 2, threshold := 2 })
    ∧ GG18.SignContext.advance trivSignLib { round := .R0 5 }
        (.signInit { protocol_type := 0, indices := [1, 2], index := 1, data := [] })
      = GG18.SignContext.advance trivSignLib { round := .R0 5 }
        (.signInit { protocol_type := 3, indices := [1, 2], index := 1, data := [] }) :=
  ⟨claim1_kind_check.1 (Musig2.Signer.fresh 1) false _ (by decide),
   claim1_kind_check.2.1 _ _ (by rfl) (by decide),
   claim1_kind_check.2.2.1 trivKeygenLib _ _ 3,
   claim1_kind_check.2.2.2 trivSignLib _ _ 3⟩

/-- C2: at the terminal state the GG18 engines' advance is `todo!()` — a
panic, not an `out-of-sequence` error return — while the MuSig2 engines
return the error the claim describes.  This theorem evaluates both GG18
engines at a terminal state and exhibits the panic. -/
theorem claim2_terminal_panic :
    (GG18.KeygenContext.advance trivKeygenLib { round := .Done 6 }
        (.server { protocol_type := 0, broadcasts := [], unicasts := [] })
      = ({ round := .Done 6 }, .fatal "not yet implemented"))
    ∧ (GG18.SignContext.advance trivSignLib { round := .Done [9, 9] }
        (.server { protocol_type := 0, broadcasts := [], unicasts := [] })
      = ({ round := .Done [9, 9] }, .fatal "not yet implemented"))
    ∧ (Musig2.KeygenContext.advance (Musig2.Signer.fresh 1)
        { round := .Done { threshold := 2, parties := 2, index := 1 }
            (Musig2.Signer.fresh 1),
          with_card := false }
        (.server { protocol_type := 3, broadcasts := [], unicasts := [] })).2
      = .err "protocol already finished"
    ∧ (Musig2.SignContext.advance
        { setup := { threshold := 2, parties := 2, index := 1 },
          initial_signer := Musig2.Signer.fresh 2, message := none, indices := none,
          round := .Done 7 }
        (.server { protocol_type := 3, broadcasts := [], unicasts := [] })).2
      = .err "protocol already finished" := by
  decide

/-- C3 counterexample: no poisoning exists.  A MuSig2 keygen engine whose
first advance failed with a declared-kind mismatch accepts a subsequent
well-formed session-init: the second call does not return the first call's
error. -/
theorem claim3_counterexample :
    (Musig2.KeygenContext.advance (Musig2.Signer.fresh 1) { round := .R0, with_card := false }
        (.groupInit { protocol_type := 0, index := 1, parties := 2, threshold := 2 })).2
      = .err "wrong protocol type"
    ∧ ((Musig2.KeygenContext.advance (Musig2.Signer.fresh 1)
        (Musig2.KeygenContext.advance (Musig2.Signer.fresh 1)
          { round := .R0, with_card := false }
          (.groupInit { protocol_type := 0, index := 1, parties := 2,
                        threshold := 2 })).1
        (.groupInit { protocol_type := 3, index := 1, parties := 2,
                      threshold := 2 })).2).isOk
      = true := by
  decide

/-- C3 amended: an advance call that returns an error leaves the engine
state exactly as it was, and every subsequent advance or finish call
therefore behaves as if the failed call had never happened; no error is
latched. -/
theorem claim3_no_poison :
    (∀ (lib : GG18.GG18KeygenLib) (s s' : GG18.KeygenContext) (d d2 : WireIn) (e : String),
       s.advance lib d = (s', .err e) →
       s'.advance lib d2 = s.advance lib d2 ∧ s'.finish lib = s.finish lib)
  ∧ (∀ (lib : GG18.GG18SignLib) (s s' : GG18.SignContext) (d d2 : WireIn) (e : String),
       s.advance lib d = (s', .err e) →
       s'.advance lib d2 = s.advance lib d2 ∧ s'.finish = s.finish)
  ∧ (∀ (fresh : Musig2.Signer) (s s' : Musig2.KeygenContext) (d d2 : WireIn) (e : String),
       s.advance fresh d = (s', .err e) →
       s'.advance fresh d2 = s.advance fresh d2 ∧ s'.finish = s.finish)
  ∧ (∀ (s s' : Musig2.SignContext) (d d2 : WireIn) (e : String),
       s.advance d = (s', .err e) →
       s'.advance d2 = s.advance d2 ∧ s'.finish = s.finish) := by
  refine ⟨?_, ?_, ?_, ?_⟩
  · intro lib s s' d d2 e h
    rw [GG18.keygen_err_eq lib s s' d e h]
    exact ⟨rfl, rfl⟩
  · intro lib s s' d d2 e h
    rw [GG18.sign_err_eq lib s s' d e h]
    exact ⟨rfl, rfl⟩
  · intro fresh s s' d d2 e h
    rw [Musig2.m2_keygen_err_eq fresh s s' d e h]
    exact ⟨rfl, rfl⟩
  · intro s s' d d2 e h
    rw [Musig2.m2_sign_err_eq s s' d e h]
    exact ⟨rfl, rfl⟩

/-- C3 witness: the amended theorem applied to concrete failing advances. -/
theorem claim3_witness :
    (GG18.KeygenContext.new.advance trivKeygenLib
        (.groupInit { protocol_type := 0, index := 1, parties := 2, threshold := 2 })
      = GG18.KeygenContext.new.advance trivKeygenLib
        (.groupInit { protocol_type := 0, index := 1, parties := 2, threshold := 2 })
      ∧ GG18.KeygenContext.new.finish trivKeygenLib
        = GG18.KeygenContext.new.finish trivKeygenLib)
    ∧ (Musig2.KeygenContext.advance (Musig2.Signer.fresh 1)
          { round := .R0, with_card := false }
          (.groupInit { protocol_type := 3, index := 1, parties := 2, threshold := 2 })
        = Musig2.KeygenContext.advance (Musig2.Signer.fresh 1)
          { round := .R0, with_card := false }
          (.groupInit { protocol_type := 3, index := 1, parties := 2, threshold := 2 })
      ∧ Musig2.KeygenContext.finish { round := .R0, with_card := false }
        = Musig2.KeygenContext.finish { round := .R0, with_card := false }) :=
  ⟨claim3_no_poison.1 trivKeygenLib GG18.KeygenContext.new GG18.KeygenContext.new
      .undecodable
      (.groupInit { protocol_type := 0, index := 1, parties := 2, threshold := 2 })
      "failed to decode Protobuf message" (by decide),
   claim3_no_poison.2.2.1 (Musig2.Signer.fresh 1)
      { round := .R0, with_card := false } { round := .R0, with_card := false }
      (.groupInit { protocol_type := 0, index := 1, parties := 2, threshold := 2 })
      (.groupInit { protocol_type := 3, index := 1, parties := 2, threshold := 2 })
      "wrong protocol type" (by decide)⟩

/-- C4: every advance call is atomic — a call that returns `Err` leaves the
engine's entire state (every field) exactly as it was, and a successful call
moves the round number up by exactly one, for all four engines. -/
theorem claim4_atomic :
    (∀ (lib : GG18.GG18KeygenLib) (s s' : GG18.KeygenContext) (d : WireIn) (e : String),
       s.advance lib d = (s', .err e) → s' = s)
  ∧ (∀ (lib : GG18.GG18KeygenLib) (s s' : GG18.KeygenContext) (d : WireIn)
       (out : ClientMessage),
       s.advance lib d = (s', .ok out) → s'.round.num = s.round.num + 1)
  ∧ (∀ (lib : GG18.GG18SignLib) (s s' : GG18.SignContext) (d : WireIn) (e : String),
       s.advance lib d = (s', .err e) → s' = s)
  ∧ (∀ (lib : GG18.GG18SignLib) (s s' : GG18.SignContext) (d : WireIn)
       (out : ClientMessage),
       s.advance lib d = (s', .ok out) → s'.round.num = s.round.num + 1)
  ∧ (∀ (fresh : Musig2.Signer) (s s' : Musig2.KeygenContext) (d : WireIn) (e : String),
       s.advance fresh d = (s', .err e) → s' = s)
  ∧ (∀ (fresh : Musig2.Signer) (s s' : Musig2.KeygenContext) (d : WireIn)
       (out : ClientMessage × Recipient),
       s.advance fresh d = (s', .ok out) → s'.round.num = s.round.num + 1)
  ∧ (∀ (s s' : Musig2.SignContext) (d : WireIn) (e : String),
       s.advance d = (s', .err e) → s' = s)
  ∧ (∀ (s s' : Musig2.SignContext) (d : WireIn) (out : ClientMessage × Recipient),
       s.advance d = (s', .ok out) → s'.round.num = s.round.num + 1) :=
  ⟨GG18.keygen_err_eq, GG18.keygen_ok_num, GG18.sign_err_eq, GG18.sign_ok_num,
   Musig2.m2_keygen_err_eq, Musig2.m2_keygen_ok_num, Musig2.m2_sign_err_eq, Musig2.m2_sign_ok_num⟩

/-- C4 witness: atomicity evaluated at a concrete failing advance and a
concrete successful advance. -/
theorem claim4_witness :
    (GG18.KeygenContext.new = GG18.KeygenContext.new)
    ∧ ((GG18.KeygenContext.mk (GG18.KeygenRound.R1 1)).round.num
        = GG18.KeygenContext.new.round.num + 1) :=
  ⟨claim4_atomic.1 trivKeygenLib GG18.KeygenContext.new GG18.KeygenContext.new
      .undecodable "failed to decode Protobuf message" (by decide),
   claim4_atomic.2.1 trivKeygenLib GG18.KeygenContext.new
      (GG18.KeygenContext.mk (GG18.KeygenRound.R1 1))
      (.groupInit { protocol_type := 0, index := 1, parties := 2, threshold := 2 })
      (pack (.bcast []) .Gg18) (by decide)⟩

/-- C5 counterexample: the MuSig2 sign engine's first advance performs no
`my_index ∈ indices` membership check — with `index = 5` and
`indices = [1, 2]` the call succeeds and the engine advances. -/
theorem claim5_counterexample :
    ((Musig2.SignContext.advance
        { setup := { threshold := 2, parties := 2, index := 1 },
          initial_signer := Musig2.Signer.fresh 2, message := none, indices := none,
          round := .R0 }
        (.signInit { protocol_type := 3, indices := [1, 2], index := 5, data := [] })).2).isOk
      = true
    ∧ (Musig2.SignContext.advance
        { setup := { threshold := 2, parties := 2, index := 1 },
          initial_signer := Musig2.Signer.fresh 2, message := none, indices := none,
          round := .R0 }
        (.signInit { protocol_type := 3, indices := [1, 2], index := 5,
                     data := [] })).1.round.num
      = 1
    ∧ (5 ∉ [1, 2]) := by
  decide

/-- C5 amended: the first advance of the MuSig2 sign engine succeeds for
every session-init record of the right declared kind, storing the declared
indices without any membership validation of `my_index`; the GG18 sign
engine delegates all index validation to the external library round
function. -/
theorem claim5_no_membership_check :
    ∀ (s : Musig2.SignContext) (m : ProtocolInit),
      s.round = .R0 → m.protocol_type = ProtocolType.Musig2.toInt →
      ((s.advance (.signInit m)).2.isOk = true
        ∧ (s.advance (.signInit m)).1.indices = some (m.indices.map (· % 65536))) := by
  intro s m hr hpt
  unfold Musig2.SignContext.advance Musig2.SignContext.init
  rw [hr]
  simp [decodeSignInit, hpt, Musig2.Signer.first_round, Musig2.Signer.get_pubnonce,
    Outcome.isOk]

/-- C5 witness: the amended theorem at a concrete non-member index. -/
theorem claim5_witness :
    ((Musig2.SignContext.advance
        { setup := { threshold := 2, parties := 2, index := 1 },
          initial_signer := Musig2.Signer.fresh 2, message := none, indices := none,
          round := .R0 }
        (.signInit { protocol_type := 3, indices := [1, 2], index := 5, data := [] })).2).isOk
      = true
    ∧ (Musig2.SignContext.advance
        { setup := { threshold := 2, parties := 2, index := 1 },
          initial_signer := Musig2.Signer.fresh 2, message := none, indices := none,
          round := .R0 }
        (.signInit { protocol_type := 3, indices := [1, 2], index := 5,
                     data := [] })).1.indices
      = some ([1, 2].map (· % 65536)) :=
  claim5_no_membership_check
    { setup := { threshold := 2, parties := 2, index := 1 },
      initial_signer := Musig2.Signer.fresh 2, message := none, indices := none,
      round := .R0 }
    { protocol_type := 3, indices := [1, 2], index := 5, data := [] }
    rfl (by decide)

/-- C6: each engine has a fixed round count: a successful run from the
initial state reaches the terminal variant exactly when it is 6 advances
long for GG18 keygen, 10 for GG18 sign, 2 for MuSig2 keygen and 3 for
MuSig2 sign. -/
theorem claim6_round_counts :
    (∀ (lib : GG18.GG18KeygenLib) (ds : List WireIn) (s : GG18.KeygenContext),
       GG18.keygenRun lib GG18.KeygenContext.new ds = some s →
       (s.round.isDone = true ↔ ds.length = 6))
  ∧ (∀ (lib : GG18.GG18SignLib) (c0 : Nat) (ds : List WireIn) (s : GG18.SignContext),
       GG18.signRun lib { round := .R0 c0 } ds = some s →
       (s.round.isDone = true ↔ ds.length = 10))
  ∧ (∀ (fresh : Musig2.Signer) (wc : Bool) (ds : List WireIn) (s : Musig2.KeygenContext),
       Musig2.keygenRun fresh { round := .R0, with_card := wc } ds = some s →
       (s.round.isDone = true ↔ ds.length = 2))
  ∧ (∀ (setup : Musig2.Setup) (sg : Musig2.Signer) (ds : List WireIn)
       (s : Musig2.SignContext),
       Musig2.signRun
         { setup := setup, initial_signer := sg, message := none, indices := none,
           round := .R0 } ds = some s →
       (s.round.isDone = true ↔ ds.length = 3)) := by
  refine ⟨?_, ?_, ?_, ?_⟩
  · intro lib ds s h
    have hn := GG18.keygenRun_num lib ds _ _ h
    rw [show GG18.KeygenContext.new.round.num = 0 from rfl] at hn
    rw [GG18.keygen_done_iff_num]
    omega
  · intro lib c0 ds s h
    have hn := GG18.signRun_num lib ds _ _ h
    rw [show (GG18.SignContext.mk (.R0 c0)).round.num = 0 from rfl] at hn
    rw [GG18.sign_done_iff_num]
    omega
  · intro fresh wc ds s h
    have hn := Musig2.m2_keygenRun_num fresh ds _ _ h
    rw [show (Musig2.KeygenContext.mk .R0 wc).round.num = 0 from rfl] at hn
    rw [Musig2.m2_keygen_done_iff_num]
    omega
  · intro setup sg ds s h
    have hn := Musig2.m2_signRun_num ds _ _ h
    rw [show (Musig2.SignContext.mk setup sg none none .R0).round.num = 0 from rfl] at hn
    rw [Musig2.m2_sign_done_iff_num]
    omega

set_option maxRecDepth 16384 in
/-- C6 witness: concrete successful full-length runs of all four engines,
each reaching the terminal variant. -/
theorem claim6_witness :
    (((GG18.keygenRun trivKeygenLib GG18.KeygenContext.new gg18KeygenTrace).getD
        GG18.KeygenContext.new).round.isDone = true ↔ gg18KeygenTrace.length = 6)
    ∧ (((GG18.signRun trivSignLib { round := .R0 5 } gg18SignTrace).getD
        { round := .R0 5 }).round.isDone = true ↔ gg18SignTrace.length = 10)
    ∧ (((Musig2.keygenRun (Musig2.Signer.fresh 1)
          { round := .R0, with_card := false } m2KeygenTrace).getD
        { round := .R0, with_card := false }).round.isDone = true
        ↔ m2KeygenTrace.length = 2)
    ∧ (((Musig2.signRun m2SignCtx0 m2SignTrace).getD m2SignCtx0).round.isDone = true
        ↔ m2SignTrace.length = 3) :=
  ⟨claim6_round_counts.1 trivKeygenLib gg18KeygenTrace _ (by decide),
   claim6_round_counts.2.1 trivSignLib 5 gg18SignTrace _ (by decide),
   claim6_round_counts.2.2.1 (Musig2.Signer.fresh 1) false m2KeygenTrace _ (by decide),
   claim6_round_counts.2.2.2 m2SignCtx0.setup (Musig2.Signer.fresh 2) m2SignTrace _
     (by decide)⟩

/-- C7: `finish` succeeds exactly in the terminal variant and returns the
`protocol not finished` error in every non-terminal state, for all four
engines. -/
theorem claim7_finish_iff_done :
    (∀ (lib : GG18.GG18KeygenLib) (s : GG18.KeygenContext),
       (s.finish lib).isOk = s.round.isDone
       ∧ (s.round.isDone = false → s.finish lib = .error "protocol not finished"))
  ∧ (∀ s : GG18.SignContext,
       s.finish.isOk = s.round.isDone
       ∧ (s.round.isDone = false → s.finish = .error "protocol not finished"))
  ∧ (∀ s : Musig2.KeygenContext,
       s.finish.isOk = s.round.isDone
       ∧ (s.round.isDone = false → s.finish = .error "protocol not finished"))
  ∧ (∀ s : Musig2.SignContext,
       s.finish.isOk = s.round.isDone
       ∧ (s.round.isDone = false → s.finish = .error "protocol not finished")) := by
  refine ⟨?_, ?_, ?_, ?_⟩
  · intro lib s
    cases hr : s.round <;>
      simp [GG18.KeygenContext.finish, GG18.KeygenRound.isDone, Except.isOk,
        Except.toBool, hr]
  · intro s
    cases hr : s.round <;>
      simp [GG18.SignContext.finish, GG18.SignRound.isDone, Except.isOk,
        Except.toBool, hr]
  · intro s
    cases hr : s.round <;>
      simp [Musig2.KeygenContext.finish, Musig2.KeygenRound.isDone, Except.isOk,
        Except.toBool, hr]
  · intro s
    cases hr : s.round <;>
      simp [Musig2.SignContext.finish, Musig2.SignRound.isDone, Except.isOk,
        Except.toBool, hr]

/-- C7 witness: `finish` evaluated on a non-terminal and a terminal
state. -/
theorem claim7_witness :
    ((GG18.KeygenContext.finish trivKeygenLib GG18.KeygenContext.new).isOk
        = GG18.KeygenContext.new.round.isDone
      ∧ (GG18.KeygenContext.new.round.isDone = false →
          GG18.KeygenContext.finish trivKeygenLib GG18.KeygenContext.new
            = .error "protocol not finished"))
    ∧ ((GG18.SignContext.mk (.Done [9])).finish.isOk
        = (GG18.SignContext.mk (.Done [9])).round.isDone
      ∧ ((GG18.SignContext.mk (.Done [9])).round.isDone = false →
          (GG18.SignContext.mk (.Done [9])).finish = .error "protocol not finished")) :=
  ⟨claim7_finish_iff_done.1 trivKeygenLib GG18.KeygenContext.new,
   claim7_finish_iff_done.2.1 (GG18.SignContext.mk (.Done [9]))⟩

set_option maxHeartbeats 3200000 in
/-- C9: the snapshot of every engine state deserializes back to exactly the
same state, for every engine kind; the restored handle is therefore
behaviorally indistinguishable from the original on every subsequent
`advance`/`finish` sequence. -/
theorem claim9_snapshot_roundtrip :
    ∀ e : CApi.EngineState, CApi.EngineState.fromJ (CApi.EngineState.toJ e) = some e := by
  intro e
  cases e with
  | gg18Keygen s =>
    cases s
    simp [CApi.EngineState.toJ, CApi.EngineState.fromJ, GG18.KeygenContext.toJ,
      GG18.KeygenContext.fromJ, gg18_keygenRound_fromJ_toJ]
  | gg18Sign s =>
    cases s
    simp [CApi.EngineState.toJ, CApi.EngineState.fromJ, GG18.SignContext.toJ,
      GG18.SignContext.fromJ, gg18_signRound_fromJ_toJ]
  | m2Keygen s =>
    cases s
    simp [CApi.EngineState.toJ, CApi.EngineState.fromJ, Musig2.KeygenContext.toJ,
      Musig2.KeygenContext.fromJ, m2_keygenRound_fromJ_toJ]
  | m2Sign s =>
    cases s
    simp [CApi.EngineState.toJ, CApi.EngineState.fromJ, Musig2.SignContext.toJ,
      Musig2.SignContext.fromJ, m2_signRound_fromJ_toJ, setup_fromJ_toJ,
      signer_fromJ_toJ, decOptNums_optJ]

/-- C10: `protocol_init` panics — rather than reporting through the error
out-parameter — whenever the group bytes do not decode as a JSON list of
byte vectors, and whenever the requested share count exceeds the decoded
list's length. -/
theorem claim10_init_panics :
    (∀ (pid : CApi.ProtocolId) (glib : GG18.GG18SignLib)
       (mp : Bytes → Option (Musig2.Setup × Musig2.Signer)) (g c p : Bytes) (n : Nat),
       CApi.parseVecVec g = none →
       CApi.protocol_init pid glib mp g c p n
         = .fatal "called `Result::unwrap()` on an `Err` value")
  ∧ (∀ (pid : CApi.ProtocolId) (glib : GG18.GG18SignLib)
       (mp : Bytes → Option (Musig2.Setup × Musig2.Signer)) (g c p : Bytes) (n : Nat)
       (l : List Bytes),
       CApi.parseVecVec g = some l → l.length < n →
       CApi.protocol_init pid glib mp g c p n
         = .fatal "range end index out of range for slice") := by
  constructor
  · intro pid glib mp g c p n h
    unfold CApi.protocol_init
    rw [h]
  · intro pid glib mp g c p n l h hl
    unfold CApi.protocol_init
    rw [h]
    simp [hl]

/-- C10 witness: concrete panics — empty group bytes (undecodable) and a
one-share artifact sliced for two shares. -/
theorem claim10_witness :
    (CApi.protocol_init .Gg18 trivSignLib (fun _ => none) [] [] [] 1
      = .fatal "called `Result::unwrap()` on an `Err` value")
    ∧ (CApi.protocol_init .Gg18 trivSignLib (fun _ => none) [1, 0] [] [] 2
      = .fatal "range end index out of range for slice") :=
  ⟨claim10_init_panics.1 .Gg18 trivSignLib (fun _ => none) [] [] [] 1 (by decide),
   claim10_init_panics.2 .Gg18 trivSignLib (fun _ => none) [1, 0] [] [] 2 [[]]
     (by decide) (by decide)⟩

set_option maxRecDepth 16384 in
/-- C8 counterexample: two permutations of the same inbound broadcast map
produce two different successful advance results.  The engine concatenates
the map values in iteration order before chunking (`deserialize_musig`), so
when the values are not individually chunk-aligned (here 34 and 100 bytes
against the 67-byte nonce chunk) the chunk boundaries — and hence the
parsed nonces and the resulting partial signature — depend on the entry
order. -/
theorem claim8_counterexample :
    ((Musig2.SignContext.advance c8ctx
        (.server { protocol_type := 3, broadcasts := [(1, serBytes c8A), (2, serBytes c8B)],
                   unicasts := [] })).2).isOk = true
    ∧ ((Musig2.SignContext.advance c8ctx
        (.server { protocol_type := 3, broadcasts := [(2, serBytes c8B), (1, serBytes c8A)],
                   unicasts := [] })).2).isOk = true
    ∧ ([(2, serBytes c8B), (1, serBytes c8A)] : List (Nat × Bytes)).Perm
        [(1, serBytes c8A), (2, serBytes c8B)]
    ∧ Musig2.SignContext.advance c8ctx
        (.server { protocol_type := 3, broadcasts := [(1, serBytes c8A), (2, serBytes c8B)],
                   unicasts := [] })
      ≠ Musig2.SignContext.advance c8ctx
        (.server { protocol_type := 3, broadcasts := [(2, serBytes c8B), (1, serBytes c8A)],
                   unicasts := [] }) := by
  refine ⟨by decide, by decide, by decide, by decide⟩

/-- C8 amended: permuting the entries of the inbound broadcasts map changes
neither the MuSig2 engines' advance output nor the successor state,
*provided* every map value is well-formed: it decodes under the serde layer
and its payload is a whole number of chunks (single 33-byte keys for the
keygen round, 67-byte nonce chunks for the first sign round, 33-byte
signature chunks for the second).  The normalization is not by peer index —
the engine discards the peer-index keys entirely and the modelled signer
orders by sorted public keys and embedded internal signer indices. -/
theorem claim8_perm_invariance :
    (∀ (setup : Musig2.Setup) (sg : Musig2.Signer) (wc : Bool) (pt1 pt2 : Int)
       (b1 b2 u1 u2 : List (Nat × Bytes)),
       b1.Perm b2 → (b1.map Prod.fst).Nodup → alignedEntries 1 b1 = true →
       Musig2.KeygenContext.update { round := .R1 setup sg, with_card := wc }
           (.server { protocol_type := pt1, broadcasts := b1, unicasts := u1 })
         = Musig2.KeygenContext.update { round := .R1 setup sg, with_card := wc }
           (.server { protocol_type := pt2, broadcasts := b2, unicasts := u2 }))
  ∧ (∀ (setup : Musig2.Setup) (isig sg : Musig2.Signer) (msgo : Option Bytes)
       (idxo : Option (List Nat)) (pt1 pt2 : Int) (b1 b2 u1 u2 : List (Nat × Bytes)),
       b1.Perm b2 → (b1.map Prod.fst).Nodup → alignedEntries 67 b1 = true →
       Musig2.SignContext.update
           { setup := setup, initial_signer := isig, message := msgo, indices := idxo,
             round := .R1 sg }
           (.server { protocol_type := pt1, broadcasts := b1, unicasts := u1 })
         = Musig2.SignContext.update
           { setup := setup, initial_signer := isig, message := msgo, indices := idxo,
             round := .R1 sg }
           (.server { protocol_type := pt2, broadcasts := b2, unicasts := u2 }))
  ∧ (∀ (setup : Musig2.Setup) (isig sg : Musig2.Signer) (msgo : Option Bytes)
       (idxo : Option (List Nat)) (pt1 pt2 : Int) (b1 b2 u1 u2 : List (Nat × Bytes)),
       b1.Perm b2 → (b1.map Prod.fst).Nodup → alignedEntries 33 b1 = true →
       Musig2.SignContext.update
           { setup := setup, initial_signer := isig, message := msgo, indices := idxo,
             round := .R2 sg }
           (.server { protocol_type := pt1, broadcasts := b1, unicasts := u1 })
         = Musig2.SignContext.update
           { setup := setup, initial_signer := isig, message := msgo, indices := idxo,
             round := .R2 sg }
           (.server { protocol_type := pt2, broadcasts := b2, unicasts := u2 })) :=
  ⟨fun setup sg wc pt1 pt2 b1 b2 u1 u2 hp hn ha =>
     m2_keygen_update_R1_perm setup sg wc pt1 pt2 b1 b2 u1 u2 hp hn ha,
   fun setup isig sg msgo idxo pt1 pt2 b1 b2 u1 u2 hp hn ha =>
     m2_sign_update_R1_perm setup isig msgo idxo sg pt1 pt2 b1 b2 u1 u2 hp hn ha,
   fun setup isig sg msgo idxo pt1 pt2 b1 b2 u1 u2 hp hn ha =>
     m2_sign_update_R2_perm setup isig msgo idxo sg pt1 pt2 b1 b2 u1 u2 hp hn ha⟩

set_option maxRecDepth 16384 in
/-- C8 witness: the amended invariance applied to concrete permuted maps of
well-formed (chunk-aligned) values, for all three MuSig2 rounds. -/
theorem claim8_witness :
    (Musig2.KeygenContext.update
        { round := .R1 { threshold := 2, parties := 2, index := 1 } (Musig2.Signer.fresh 1),
          with_card := false }
        (.server { protocol_type := 3,
                   broadcasts := [(1, serBytes (Musig2.natBytes 33 0)),
                                  (2, serBytes (Musig2.natBytes 33 1))],
                   unicasts := [] })
      = Musig2.KeygenContext.update
        { round := .R1 { threshold := 2, parties := 2, index := 1 } (Musig2.Signer.fresh 1),
          with_card := false }
        (.server { protocol_type := 3,
                   broadcasts := [(2, serBytes (Musig2.natBytes 33 1)),
                                  (1, serBytes (Musig2.natBytes 33 0))],
                   unicasts := [] }))
    ∧ (Musig2.SignContext.update c8ctx
        (.server { protocol_type := 3,
                   broadcasts := [(1, serBytes (Musig2.natBytes 67 4)),
                                  (2, serBytes (Musig2.natBytes 67 5))],
                   unicasts := [] })
      = Musig2.SignContext.update c8ctx
        (.server { protocol_type := 3,
                   broadcasts := [(2, serBytes (Musig2.natBytes 67 5)),
                                  (1, serBytes (Musig2.natBytes 67 4))],
                   unicasts := [] }))
    ∧ (Musig2.SignContext.update
        { setup := { threshold := 2, parties := 2, index := 1 },
          initial_signer := c8signer, message := some [104, 105], indices := some [1, 2],
          round := .R2 c8signer }
        (.server { protocol_type := 3,
                   broadcasts := [(1, serBytes (Musig2.natBytes 33 6)),
                                  (2, serBytes (Musig2.natBytes 33 7))],
                   unicasts := [] })
      = Musig2.SignContext.update
        { setup := { threshold := 2, parties := 2, index := 1 },
          initial_signer := c8signer, message := some [104, 105], indices := some [1, 2],
          round := .R2 c8signer }
        (.server { protocol_type := 3,
                   broadcasts := [(2, serBytes (Musig2.natBytes 33 7)),
                                  (1, serBytes (Musig2.natBytes 33 6))],
                   unicasts := [] })) :=
  ⟨claim8_perm_invariance.1 _ _ false 3 3 _ _ [] []
     (by decide) (by decide) (by decide),
   claim8_perm_invariance.2.1 _ _ _ (some [104, 105]) (some [1, 2]) 3 3 _ _ [] []
     (by decide) (by decide) (by decide),
   claim8_perm_invariance.2.2 _ _ _ (some [104, 105]) (some [1, 2]) 3 3 _ _ [] []
     (by decide) (by decide) (by decide)⟩
